import Mathlib

/-!
Shallow embedding of the iteration core of this runtime: the composite
iterators (zip, map, enumerate, reverse-sequence), the ordered-mapping view
iterators, the wrapper-descriptor call path, and the items-view containment
check, together with theorems settling the spec claims about them.

Pure Rust functions become Lean functions; iterator objects that mutate in
place become explicit state passing (`next : State → Result × State`);
fallible code returns `Except PyErr _`.  Host-object-model facilities that
are external to the repository (subclass tests, sequence item access, the
dictionary storage engine) are modelled from the spec where noted.
-/

/-- Python exception values, by class, carrying the message where one is
formatted.  `stopIteration` is the plain stop signal used by the
`PyIter`-style protocol (`vm.new_stop_iteration()`). -/
inductive PyErr : Type where
  | stopIteration : PyErr
  | indexError : String → PyErr
  | keyError : PyErr
  | valueError : String → PyErr
  | typeError : String → PyErr
  | runtimeError : String → PyErr
deriving DecidableEq, Repr

/-- The `PyIterReturn` of `protocol`: a yielded item or the exhaustion signal
with an optional payload (`StopIteration(None)` most of the time). -/
inductive PyIterReturn (α : Type) : Type where
  | Return : α → PyIterReturn α
  | StopIteration : Option α → PyIterReturn α
deriving DecidableEq, Repr

/-! ### Generic stepping helpers

Every iterator is embedded as `next : T → R × T` (result plus updated
state).  `stepState` keeps only the state, `stepN` iterates it. -/

def stepState {T R : Type} (next : T → R × T) (t : T) : T :=
  (next t).2

def stepN {T R : Type} (next : T → R × T) : Nat → T → T
  | 0, t => t
  | n + 1, t => stepN next n (stepState next t)

theorem stepN_succ_right {T R : Type} (next : T → R × T) (n : Nat) (t : T) :
    stepN next (n + 1) t = stepState next (stepN next n t) := by
  induction n generalizing t with
  | zero => rfl
  | succ n ih =>
    show stepN next (n + 1) (stepState next t) = _
    rw [ih]
    rfl

/-- Sticky exhaustion, for an iterator embedded as `next` with exhaustion
results recognised by `isStop`: once a call yields the exhaustion signal,
every subsequent call does as well. -/
def StickyIter {T R : Type} (next : T → R × T) (isStop : R → Prop) : Prop :=
  ∀ t, isStop (next t).1 → ∀ n, isStop (next (stepN next n (stepState next t))).1

theorem stickyIter_of_preserved {T R : Type} (next : T → R × T) (isStop : R → Prop)
    (h : ∀ t, isStop (next t).1 → isStop (next (stepState next t)).1) :
    StickyIter next isStop := by
  intro t ht n
  induction n generalizing t with
  | zero => exact h t ht
  | succ n ih =>
    rw [stepN]
    exact ih (stepState next t) (h t ht)

/-- Exhaustion for the `PyIter`-style protocol: the plain stop error. -/
def ExceptIsStop {β : Type} (r : Except PyErr β) : Prop :=
  r = Except.error PyErr.stopIteration

/-- Exhaustion for the `SlotIterator`/`IterNext`-style protocol: an `Ok`
carrying `StopIteration` with any payload. -/
def IterReturnIsStop {β : Type} (r : Except PyErr (PyIterReturn β)) : Prop :=
  ∃ v, r = Except.ok (PyIterReturn.StopIteration v)

/-! ### Sub-iterator models

The spec's iterator signature is `next() -> Yielded(item) | Exhausted`; a
sub-iterator is a state machine `σ → Option α × σ`, sticky when exhaustion
is permanent.  The two lifts inject such a machine into the two result
shapes the source consumes sub-iterators through. -/

def PureSticky {σ α : Type} (g : σ → Option α × σ) : Prop :=
  ∀ s, (g s).1 = none → (g ((g s).2)).1 = none

/-- Lift into the `PyIter` protocol (exhaustion = `Err(StopIteration)`),
the shape `iterator::call_next` returns. -/
def liftIterP {σ α : Type} (g : σ → Option α × σ) (s : σ) : Except PyErr α × σ :=
  match g s with
  | (some v, s') => (Except.ok v, s')
  | (none, s') => (Except.error PyErr.stopIteration, s')

/-- Lift into the `IterNext` protocol (exhaustion = `Ok(StopIteration(None))`),
the shape `PyIter::next` returns for zip's sub-iterators. -/
def liftIterZ {σ α : Type} (g : σ → Option α × σ) (s : σ) :
    Except PyErr (PyIterReturn α) × σ :=
  match g s with
  | (some v, s') => (Except.ok (PyIterReturn.Return v), s')
  | (none, s') => (Except.ok (PyIterReturn.StopIteration none), s')

/-- A list used as a concrete sub-iterator: pop the head, exhausted on `[]`. -/
def listPull {α : Type} : List α → Option α × List α
  | [] => (none, [])
  | x :: xs => (some x, xs)

theorem listPull_sticky {α : Type} : PureSticky (listPull (α := α)) := by
  intro s h
  cases s with
  | nil => rfl
  | cons x xs => simp [listPull] at h

/-! ### zip (`vm/src/builtins/zip.rs`)

`PyZip { iterators: Vec<PyIter>, strict: AtomicCell<bool> }`.  The strict
error messages are formatted exactly as in the source. -/

structure PyZipState (σ : Type) : Type where
  iterators : List σ
  strict : Bool

/-- The strict length-mismatch message of the first loop:
`"zip() argument {index+1} is shorter than argument{plural}{index}"`,
`plural` being `" "` when `index == 1` and `"s 1-"` otherwise. -/
def zipShorterMsg (index : Nat) : String :=
  "zip() argument " ++ toString (index + 1) ++ " is shorter than argument"
    ++ (if index == 1 then " " else "s 1-") ++ toString index

/-- The strict message of the probe loop, same shape with "longer". -/
def zipLongerMsg (index : Nat) : String :=
  "zip() argument " ++ toString (index + 1) ++ " is longer than argument"
    ++ (if index == 1 then " " else "s 1-") ++ toString index

/-- Outcome of the first loop of `PyZip::next`: every sub-iterator yielded,
or the sub-iterator at some index signalled `StopIteration`, or a
sub-iterator call failed.  Each constructor carries the updated
sub-iterator states (pulled ones stepped, the rest untouched). -/
inductive ZipPull (α σ : Type) : Type where
  | objs : List α → List σ → ZipPull α σ
  | stopAt : Nat → Option α → List σ → ZipPull α σ
  | failed : PyErr → List σ → ZipPull α σ

/-- The `for (index, iterator) in zelf.iterators.iter().enumerate()` loop of
`PyZip::next`, accumulating `next_objs` and stopping at the first
sub-iterator that does not yield. -/
def zipPullAux {σ α : Type} (step : σ → Except PyErr (PyIterReturn α) × σ) :
    List σ → Nat → ZipPull α σ
  | [], _ => ZipPull.objs [] []
  | s :: rest, index =>
    match step s with
    | (Except.error e, s') => ZipPull.failed e (s' :: rest)
    | (Except.ok (PyIterReturn.StopIteration v), s') => ZipPull.stopAt index v (s' :: rest)
    | (Except.ok (PyIterReturn.Return x), s') =>
      match zipPullAux step rest (index + 1) with
      | ZipPull.objs xs states => ZipPull.objs (x :: xs) (s' :: states)
      | ZipPull.stopAt j v states => ZipPull.stopAt j v (s' :: states)
      | ZipPull.failed e states => ZipPull.failed e (s' :: states)

/-- Embedding of `SlotIterator for PyZip::next`.  `mkTuple` stands for
`vm.ctx.new_tuple`, packing the round's objects; the object type is shared
between sub-iterator items and zip's own results, as in the untyped
runtime.  On a `StopIteration` at `index` in strict mode: `index > 0`
raises the "shorter" `ValueError`; at `index == 0` the source probes
`zelf.iterators[1..]`, but both arms of that probe loop's body `return`, so
only the first remaining sub-iterator is ever examined — a yielded item
raises the "longer" `ValueError` with the probe loop's own `index` (always
`0`), an exhaustion returns the probe's `StopIteration` payload.  Outside
strict mode the `StopIteration` propagates as-is. -/
def zipNext {σ α : Type} (step : σ → Except PyErr (PyIterReturn α) × σ)
    (mkTuple : List α → α) (z : PyZipState σ) :
    Except PyErr (PyIterReturn α) × PyZipState σ :=
  if z.iterators.isEmpty then
    (Except.ok (PyIterReturn.StopIteration none), z)
  else
    match zipPullAux step z.iterators 0 with
    | ZipPull.objs xs states =>
      (Except.ok (PyIterReturn.Return (mkTuple xs)), { z with iterators := states })
    | ZipPull.failed e states =>
      (Except.error e, { z with iterators := states })
    | ZipPull.stopAt index v states =>
      if z.strict then
        if index > 0 then
          (Except.error (PyErr.valueError (zipShorterMsg index)),
            { z with iterators := states })
        else
          match states with
          | [] => (Except.ok (PyIterReturn.StopIteration v), { z with iterators := states })
          | s0 :: tail =>
            match tail with
            | [] => (Except.ok (PyIterReturn.StopIteration v), { z with iterators := s0 :: tail })
            | s1 :: tail2 =>
              match step s1 with
              | (Except.error e, s1') =>
                (Except.error e, { z with iterators := s0 :: s1' :: tail2 })
              | (Except.ok (PyIterReturn.Return _), s1') =>
                (Except.error (PyErr.valueError (zipLongerMsg 0)),
                  { z with iterators := s0 :: s1' :: tail2 })
              | (Except.ok (PyIterReturn.StopIteration v2), s1') =>
                (Except.ok (PyIterReturn.StopIteration v2),
                  { z with iterators := s0 :: s1' :: tail2 })
      else
        (Except.ok (PyIterReturn.StopIteration v), { z with iterators := states })

/-! ### enumerate (`vm/src/builtins/enumerate.rs`)

`PyEnumerate { counter: PyRwLock<BigInt>, iterator: PyObjectRef }`; the
arbitrary-precision `BigInt` counter is embedded as `Int`. -/

structure PyEnumerateState (σ : Type) : Type where
  counter : Int
  iterator : σ

/-- Embedding of `PyIter for PyEnumerate::next`: pull from the sub-iterator (any error,
exhaustion included, propagates before the counter is touched); on success
pair `(counter, item)` and then increment the counter. -/
def enumNext {σ α : Type} (step : σ → Except PyErr α × σ)
    (e : PyEnumerateState σ) : Except PyErr (Int × α) × PyEnumerateState σ :=
  match step e.iterator with
  | (Except.error err, s') => (Except.error err, { e with iterator := s' })
  | (Except.ok v, s') =>
    (Except.ok (e.counter, v), { counter := e.counter + 1, iterator := s' })

/-- Constructor `tp_new`: counter starts at `start` (default `0`). -/
def enumNew {σ : Type} (iterator : σ) (start : Int) : PyEnumerateState σ :=
  { counter := start, iterator := iterator }

/-! ### reverse-sequence iterator (`vm/src/builtins/enumerate.rs`)

`PyReverseSequenceIterator { position: AtomicCell<isize>, status, obj }`.
The subject is abstract; its item access `obj.get_item(pos, vm)` is a
parameter `getItem`.  `isize` positions are embedded as `Int`. -/

/-- The payload-free `IterStatus` of `builtins::iter` used by
`PyReverseSequenceIterator`. -/
inductive RevIterStatus : Type where
  | Active : RevIterStatus
  | Exhausted : RevIterStatus
deriving DecidableEq, Repr

structure PyRevSeqIterState (σ : Type) : Type where
  position : Int
  status : RevIterStatus
  obj : σ

/-- Constructor `PyReverseSequenceIterator::new`: position `len - 1`, already
`Exhausted` when `len == 0`. -/
def revSeqNew {σ : Type} (obj : σ) (len : Int) : PyRevSeqIterState σ :=
  { position := len - 1
    status := if len = 0 then RevIterStatus.Exhausted else RevIterStatus.Active
    obj := obj }

/-- Embedding of `PyIter for PyReverseSequenceIterator::next`: on `Exhausted` the stop
signal; otherwise `fetch_sub(1)` on the position, then for a non-negative
old position call `getItem`, turning an `IndexError`-class failure into the
stop signal with the status forced to `Exhausted` and passing every other
result (items, other errors, a raw stop signal) through unchanged; a
negative old position is exhaustion. -/
def revSeqNext {σ α : Type} (getItem : σ → Int → Except PyErr α)
    (it : PyRevSeqIterState σ) : Except PyErr α × PyRevSeqIterState σ :=
  match it.status with
  | RevIterStatus.Exhausted => (Except.error PyErr.stopIteration, it)
  | RevIterStatus.Active =>
    let pos := it.position
    let it' := { it with position := pos - 1 }
    if 0 ≤ pos then
      match getItem it.obj pos with
      | Except.error (PyErr.indexError m) =>
        let _ := m
        (Except.error PyErr.stopIteration,
          { it' with status := RevIterStatus.Exhausted })
      | ret => (ret, it')
    else
      (Except.error PyErr.stopIteration,
        { it' with status := RevIterStatus.Exhausted })

/-- The `isize` range test performed by `try_to_primitive` when restoring a
persisted position; out-of-range `BigInt`s fail the conversion and
`unwrap_or(0)` substitutes `0`. -/
def inIsizeRange (n : Int) : Bool :=
  decide (-(2 ^ 63) ≤ n) && decide (n < 2 ^ 63)

/-- Embedding of `PyReverseSequenceIterator::setstate`: a no-op on an `Exhausted`
iterator; otherwise read the subject's *current* length (`lenOf`), convert
the supplied integer (`0` when it does not fit an `isize`), and store
`min(converted, len - 1)`. -/
def revSeqSetstate {σ : Type} (lenOf : σ → Int) (it : PyRevSeqIterState σ)
    (state : Int) : PyRevSeqIterState σ :=
  match it.status with
  | RevIterStatus.Exhausted => it
  | RevIterStatus.Active =>
    let len := lenOf it.obj
    let pos := min (if inIsizeRange state then state else 0) (len - 1)
    { it with position := pos }

/-- Modelled from the spec: sequence item access through the slot table,
for a concrete list subject — yields the element at an in-range index and
raises an out-of-range (`IndexError`-class) condition otherwise. -/
def listGetItem {α : Type} (l : List α) (i : Int) : Except PyErr α :=
  if 0 ≤ i then
    match l.get? i.toNat with
    | some v => Except.ok v
    | none => Except.error (PyErr.indexError "index out of range")
  else Except.error (PyErr.indexError "index out of range")

/-- Modelled from the spec: a general random-access subject, given by a
total lookup returning an item or the out-of-range condition (the spec's
item-access interface: a value, or an out-of-range failure treated by the
iterator as exhaustion). -/
def liftGetItem {σ α : Type} (g : σ → Int → Option α) (s : σ) (i : Int) :
    Except PyErr α :=
  match g s i with
  | some v => Except.ok v
  | none => Except.error (PyErr.indexError "index out of range")

/-! ### map (`vm/src/builtins/map.rs`)

`PyMap { mapper: PyObjectRef, iterators: Vec<PyObjectRef> }`.  Invoking the
mapper (`vm.invoke`) is embedded as the function stored in the state. -/

structure PyMapState (σ α β : Type) : Type where
  mapper : List α → Except PyErr β
  iterators : List σ

/-- The `collect::<Result<Vec<_>, _>>` over `iterator::call_next` in
`PyMap::next`: pull one item from each sub-iterator in order, stopping at
the first failure (exhaustion included) without touching the later
sub-iterators. -/
def mapCollect {σ α : Type} (step : σ → Except PyErr α × σ) :
    List σ → Except PyErr (List α) × List σ
  | [] => (Except.ok [], [])
  | s :: rest =>
    match step s with
    | (Except.error e, s') => (Except.error e, s' :: rest)
    | (Except.ok v, s') =>
      match mapCollect step rest with
      | (Except.error e, states) => (Except.error e, s' :: states)
      | (Except.ok vs, states) => (Except.ok (v :: vs), s' :: states)

/-- Embedding of `PyIter for PyMap::next`: collect one item per sub-iterator, then
invoke the mapper on the collected values positionally; any collection
failure propagates before the mapper is invoked, and the mapper's own
result (a raised `StopIteration` included) is returned as-is. -/
def mapNext {σ α β : Type} (step : σ → Except PyErr α × σ)
    (m : PyMapState σ α β) : Except PyErr β × PyMapState σ α β :=
  match mapCollect step m.iterators with
  | (Except.error e, states) => (Except.error e, { m with iterators := states })
  | (Except.ok vs, states) => (m.mapper vs, { m with iterators := states })

/-! ### Ordered-mapping views (`vm/src/builtins/odict.rs`)

The view iterators generated by the `odict_view!` macro differ only in the
projection `$result_fn` applied to a traversed `(key, value)` entry, so the
embedding is parameterised by that projection.  The backing dictionary
storage (`dictdatatype`, `PyDictRef`, `PositionIterInternal`) is not part
of this repository's sources and is modelled from the spec. -/

/-- Modelled from the spec: the backing insertion-ordered mapping — a list
of entries in insertion order plus a size signature, "a structural-change
counter/snapshot of a container, used to detect concurrent mutation during
iteration"; structural mutation changes the signature, in-place value
mutation does not. -/
structure PyDictModel (κ ω : Type) : Type where
  entries : List (κ × ω)
  sizeSig : Nat

/-- Modelled from the spec: `dict.entries.has_changed_size(&snapshot)` — the
live container's signature no longer matches the snapshot. -/
def hasChangedSize {κ ω : Type} (d : PyDictModel κ ω) (snapshot : Nat) : Bool :=
  d.sizeSig ≠ snapshot

/-- Modelled from the spec: `dict.entries.next_entry(position)` — the entry
at `position` in insertion order together with the following position, or
nothing when the position is past the end. -/
def nextEntry {κ ω : Type} (d : PyDictModel κ ω) (position : Nat) :
    Option (Nat × κ × ω) :=
  match d.entries.get? position with
  | some e => some (position + 1, e.1, e.2)
  | none => none

/-- Modelled from the spec: `dict.entries.prev_entry(position)` — the entry
at `position` together with the preceding position (saturating at `0`, the
caller detects the unchanged position as the end), or nothing when the
position is past the end. -/
def prevEntry {κ ω : Type} (d : PyDictModel κ ω) (position : Nat) :
    Option (Nat × κ × ω) :=
  match d.entries.get? position with
  | some e => some (position - 1, e.1, e.2)
  | none => none

/-- The `IterStatus` of `PositionIterInternal`: `Active` holds the subject
reference. -/
inductive PosIterStatus (δ : Type) : Type where
  | Active : δ → PosIterStatus δ
  | Exhausted : PosIterStatus δ

/-- State record `PositionIterInternal \x7b status, position \x7d`. -/
structure PositionIterInternal (δ : Type) : Type where
  status : PosIterStatus δ
  position : Nat

/-- The state generated by `odict_view!` for a forward or reverse view
iterator: the `DictSize` snapshot captured at construction plus the
position/status internals. -/
structure ODictIterState (κ ω : Type) : Type where
  size : Nat
  internal : PositionIterInternal (PyDictModel κ ω)

/-- Constructor `$iter_name::new`: snapshot the dictionary's size, start at position 0. -/
def odictIterNew {κ ω : Type} (dict : PyDictModel κ ω) : ODictIterState κ ω :=
  { size := dict.sizeSig
    internal := { status := PosIterStatus.Active dict, position := 0 } }

/-- Constructor `$reverse_iter_name::new`: snapshot the size, start at
`entries_size.saturating_sub(1)`. -/
def odictReverseIterNew {κ ω : Type} (dict : PyDictModel κ ω) : ODictIterState κ ω :=
  { size := dict.sizeSig
    internal := { status := PosIterStatus.Active dict
                  position := dict.entries.length - 1 } }

/-- Embedding of `IterNext for $iter_name::next` (forward): on an `Active` status, a
size-signature mismatch raises the structural-mutation `RuntimeError` and
forces `Exhausted`; otherwise the next entry is projected through
`resultFn` and the position advances, or the iterator exhausts; an
`Exhausted` status reports plain exhaustion. -/
def odictIterNext {κ ω α : Type} (resultFn : κ → ω → α)
    (s : ODictIterState κ ω) :
    Except PyErr (PyIterReturn α) × ODictIterState κ ω :=
  match s.internal.status with
  | PosIterStatus.Active dict =>
    if hasChangedSize dict s.size then
      (Except.error (PyErr.runtimeError "dictionary changed size during iteration"),
        { s with internal := { s.internal with status := PosIterStatus.Exhausted } })
    else
      match nextEntry dict s.internal.position with
      | some (position, key, value) =>
        (Except.ok (PyIterReturn.Return (resultFn key value)),
          { s with internal := { s.internal with position := position } })
      | none =>
        (Except.ok (PyIterReturn.StopIteration none),
          { s with internal := { s.internal with status := PosIterStatus.Exhausted } })
  | PosIterStatus.Exhausted => (Except.ok (PyIterReturn.StopIteration none), s)

/-- Embedding of `IterNext for $reverse_iter_name::next` (reverse): as for the forward
iterator, except the position walks backwards through `prevEntry` and an
unchanged position after a yield (the saturated `0`) marks the iterator
`Exhausted` for the following call. -/
def odictReverseIterNext {κ ω α : Type} (resultFn : κ → ω → α)
    (s : ODictIterState κ ω) :
    Except PyErr (PyIterReturn α) × ODictIterState κ ω :=
  match s.internal.status with
  | PosIterStatus.Active dict =>
    if hasChangedSize dict s.size then
      (Except.error (PyErr.runtimeError "dictionary changed size during iteration"),
        { s with internal := { s.internal with status := PosIterStatus.Exhausted } })
    else
      match prevEntry dict s.internal.position with
      | some (position, key, value) =>
        if s.internal.position = position then
          (Except.ok (PyIterReturn.Return (resultFn key value)),
            { s with internal := { s.internal with status := PosIterStatus.Exhausted } })
        else
          (Except.ok (PyIterReturn.Return (resultFn key value)),
            { s with internal := { s.internal with position := position } })
      | none =>
        (Except.ok (PyIterReturn.StopIteration none),
          { s with internal := { s.internal with status := PosIterStatus.Exhausted } })
  | PosIterStatus.Exhausted => (Except.ok (PyIterReturn.StopIteration none), s)

/-! ### Items-view containment (`PyOrderedDictItems::contains`)

A small concrete object universe distinguishes tuples (the `match_class!`
on `PyTuple`); equality of keys and the `identical_or_equal` check on
values are modelled from the spec as structural equality on this
universe — object identity implies structural equality, so the
"same-or-equal" check collapses to it. -/

inductive PyObj : Type where
  | int : Int → PyObj
  | str : String → PyObj
  | tuple : List PyObj → PyObj

mutual
/-- Modelled from the spec: the host equality primitive used for dictionary
key probing and `vm.identical_or_equal`, as structural equality on the
object universe. -/
def pyEq : PyObj → PyObj → Bool
  | PyObj.int a, PyObj.int b => a == b
  | PyObj.str a, PyObj.str b => a == b
  | PyObj.tuple a, PyObj.tuple b => pyEqList a b
  | _, _ => false
def pyEqList : List PyObj → List PyObj → Bool
  | [], [] => true
  | x :: xs, y :: ys => pyEq x y && pyEqList xs ys
  | _, _ => false
end

/-- Modelled from the spec: `self.dict().contains(key, vm)` on the backing
ordered mapping — some entry's key equals the probe. -/
def dictContains (d : PyDictModel PyObj PyObj) (key : PyObj) : Bool :=
  d.entries.any (fun e => pyEq e.1 key)

/-- Modelled from the spec: `PyDict::getitem` — the value of the first
entry whose key equals the probe, or a `KeyError`. -/
def dictGetitem (d : PyDictModel PyObj PyObj) (key : PyObj) :
    Except PyErr PyObj :=
  match d.entries.find? (fun e => pyEq e.1 key) with
  | some e => Except.ok e.2
  | none => Except.error PyErr.keyError

/-- Embedding of `PyOrderedDictItems::contains`: a non-tuple probe is `false`; a tuple
of length other than 2 is `false`; a missing key is `false`; otherwise the
stored value is compared to the probe's second component with
`vm.identical_or_equal`. -/
def odictItemsContains (d : PyDictModel PyObj PyObj) (needle : PyObj) :
    Except PyErr Bool :=
  match needle with
  | PyObj.tuple elems =>
    if elems.length ≠ 2 then Except.ok false
    else
      let key := elems.getD 0 (PyObj.int 0)
      if ¬ dictContains d key then Except.ok false
      else
        let value := elems.getD 1 (PyObj.int 0)
        match dictGetitem d key with
        | Except.error e => Except.error e
        | Except.ok found => Except.ok (pyEq found value)
  | _ => Except.ok false

/-! ### Wrapper descriptor (`vm/src/builtins/wrapperdescr.rs`)

`PyWrapperDescriptor { name, class, doc, wrapper }`.  The host's dynamic
type machinery (`s.class()`, `s.is_subclass(...)`) is external to the
repository. -/

/-- A type object, reduced to its name for the error messages. -/
structure PyTypeModel : Type where
  name : String
deriving DecidableEq, Repr

structure PyWrapperDescriptorModel (Obj : Type) : Type where
  name : String
  cls : PyTypeModel
  wrapper : Obj → List Obj → Except PyErr Obj

/-- Embedding of `Callable for PyWrapperDescriptor::call`: no positional argument raises
the arity `TypeError`; a first argument whose type fails the owner check
(`classOf`/`isSub` — modelled from the spec: the host subclass test, which
per the spec requires the argument's runtime type to be a subclass of the
descriptor's declared owner type) raises the `TypeError` naming the
descriptor, the owner and the received type; otherwise `raw_call`
dispatches the wrapped function on the receiver with the full argument
list. -/
def wrapperDescrCall {Obj : Type} (classOf : Obj → PyTypeModel)
    (isSub : PyTypeModel → PyTypeModel → Bool)
    (zelf : PyWrapperDescriptorModel Obj) (args : List Obj) : Except PyErr Obj :=
  match args with
  | [] =>
    Except.error (PyErr.typeError
      ("descriptor \x27" ++ zelf.name ++ "\x27 of \x27" ++ zelf.cls.name
        ++ "\x27 object needs an argument"))
  | s :: _ =>
    if ¬ isSub (classOf s) zelf.cls then
      Except.error (PyErr.typeError
        ("descriptor \x27" ++ zelf.name ++ "\x27 requires a \x27"
          ++ zelf.cls.name ++ "\x27 object but received a \x27"
          ++ (classOf s).name ++ "\x27"))
    else
      zelf.wrapper s args

/-! ### Concrete zip instantiations for the strict-mode test vectors -/

/-- Sub-iterators of the test vectors: lists of objects pulled through the
`IterNext` protocol. -/
def zipStepO : List PyObj → Except PyErr (PyIterReturn PyObj) × List PyObj :=
  liftIterZ listPull

/-- Embedding of `PyZip::next` over list sub-iterators of objects, tuples built by the
object universe's tuple constructor. -/
def zipNextO : PyZipState (List PyObj) → Except PyErr (PyIterReturn PyObj) × PyZipState (List PyObj) :=
  zipNext zipStepO PyObj.tuple

/-- Claim C1: Strict-zip length-mismatch diagnostics, evaluated on the
spec's test vectors.  The "shorter" direction matches the claim exactly:
`zip([1,2,3],[1,2], strict=True)` yields two tuples and then a
`ValueError` naming argument 2 as shorter than argument 1, and a
three-operand run exhausting at position 2 names argument 3 as shorter
than arguments 1-2; equal-length strict operands yield their tuples and
then plain exhaustion with no error.  But in the "longer" direction the
code is off by one: `zip([1,2],[1,2,3], strict=True)` raises
`"zip() argument 1 is longer than arguments 1-0"` instead of identifying
argument 2 as longer than argument 1 — the probe loop enumerates
`iterators[1..]` from zero without re-adding the slice offset. -/
theorem zip_strict_messages_evaluated :
    (zipNextO ⟨[[PyObj.int 1, PyObj.int 2, PyObj.int 3], [PyObj.int 1, PyObj.int 2]], true⟩).1
      = Except.ok (PyIterReturn.Return (PyObj.tuple [PyObj.int 1, PyObj.int 1]))
    ∧ (zipNextO (stepN zipNextO 1 ⟨[[PyObj.int 1, PyObj.int 2, PyObj.int 3], [PyObj.int 1, PyObj.int 2]], true⟩)).1
      = Except.ok (PyIterReturn.Return (PyObj.tuple [PyObj.int 2, PyObj.int 2]))
    ∧ (zipNextO (stepN zipNextO 2 ⟨[[PyObj.int 1, PyObj.int 2, PyObj.int 3], [PyObj.int 1, PyObj.int 2]], true⟩)).1
      = Except.error (PyErr.valueError "zip() argument 2 is shorter than argument 1")
    ∧ (zipNextO ⟨[[PyObj.int 1], [PyObj.int 1], []], true⟩).1
      = Except.error (PyErr.valueError "zip() argument 3 is shorter than arguments 1-2")
    ∧ (zipNextO (stepN zipNextO 2 ⟨[[PyObj.int 1, PyObj.int 2], [PyObj.int 1, PyObj.int 2, PyObj.int 3]], true⟩)).1
      = Except.error (PyErr.valueError "zip() argument 1 is longer than arguments 1-0")
    ∧ (zipNextO ⟨[[PyObj.int 1, PyObj.int 2], [PyObj.int 3, PyObj.int 4]], true⟩).1
      = Except.ok (PyIterReturn.Return (PyObj.tuple [PyObj.int 1, PyObj.int 3]))
    ∧ (zipNextO (stepN zipNextO 1 ⟨[[PyObj.int 1, PyObj.int 2], [PyObj.int 3, PyObj.int 4]], true⟩)).1
      = Except.ok (PyIterReturn.Return (PyObj.tuple [PyObj.int 2, PyObj.int 4]))
    ∧ (zipNextO (stepN zipNextO 2 ⟨[[PyObj.int 1, PyObj.int 2], [PyObj.int 3, PyObj.int 4]], true⟩)).1
      = Except.ok (PyIterReturn.StopIteration none)
    ∧ (zipNextO (stepN zipNextO 3 ⟨[[PyObj.int 1, PyObj.int 2], [PyObj.int 3, PyObj.int 4]], true⟩)).1
      = Except.ok (PyIterReturn.StopIteration none) := by
  exact ⟨rfl, rfl, rfl, rfl, rfl, rfl, rfl, rfl, rfl⟩

theorem zipNext_empty {σ α : Type} (step : σ → Except PyErr (PyIterReturn α) × σ)
    (mkTuple : List α → α) (b : Bool) :
    zipNext step mkTuple ⟨[], b⟩ = (Except.ok (PyIterReturn.StopIteration none), ⟨[], b⟩) := by
  rfl

/-- Claim C10: A zip constructed with zero iterables: every `next` call, in
either strict mode, returns plain exhaustion (`StopIteration` with no
payload) and never an error — the state never changes, so this holds for
the `n`-th call for every `n`. -/
theorem zip_no_iterators_always_plain_exhaustion :
    ∀ (σ α : Type) (step : σ → Except PyErr (PyIterReturn α) × σ)
      (mkTuple : List α → α) (b : Bool) (n : Nat),
    (zipNext step mkTuple (stepN (zipNext step mkTuple) n ⟨[], b⟩)).1
      = Except.ok (PyIterReturn.StopIteration none) := by
  intro σ α step mkTuple b n
  have hfix : ∀ m, stepN (zipNext step mkTuple) m (⟨[], b⟩ : PyZipState σ) = ⟨[], b⟩ := by
    intro m
    induction m with
    | zero => rfl
    | succ m ih =>
      rw [stepN_succ_right, ih]
      show (zipNext step mkTuple ⟨[], b⟩).2 = _
      rw [zipNext_empty]
  rw [hfix, zipNext_empty]

/-- Claim C8: Calling an unbound wrapper descriptor: with zero positional
arguments, the arity `TypeError` saying the descriptor needs an argument;
with a first argument failing the owner-type subclass check, the
`TypeError` naming the descriptor's name, the owner type and the received
object's type; with a first argument passing the check, dispatch of the
raw wrapped function on it. -/
theorem wrapperdescr_call_validation :
    ∀ (Obj : Type) (classOf : Obj → PyTypeModel)
      (isSub : PyTypeModel → PyTypeModel → Bool)
      (zelf : PyWrapperDescriptorModel Obj) (s : Obj) (rest : List Obj),
    wrapperDescrCall classOf isSub zelf []
      = Except.error (PyErr.typeError
          ("descriptor \x27" ++ zelf.name ++ "\x27 of \x27" ++ zelf.cls.name
            ++ "\x27 object needs an argument"))
    ∧ (isSub (classOf s) zelf.cls = false →
        wrapperDescrCall classOf isSub zelf (s :: rest)
          = Except.error (PyErr.typeError
              ("descriptor \x27" ++ zelf.name ++ "\x27 requires a \x27"
                ++ zelf.cls.name ++ "\x27 object but received a \x27"
                ++ (classOf s).name ++ "\x27")))
    ∧ (isSub (classOf s) zelf.cls = true →
        wrapperDescrCall classOf isSub zelf (s :: rest)
          = zelf.wrapper s (s :: rest)) := by
  intro Obj classOf isSub zelf s rest
  refine ⟨rfl, ?_, ?_⟩
  · intro h
    simp [wrapperDescrCall, h]
  · intro h
    simp [wrapperDescrCall, h]

/-- A concrete two-type universe for exercising the wrapper-descriptor
call path: object `0` has the owner type `T`, all others the unrelated
type `U`, and the subclass relation is name equality. -/
def wdClassOf : Nat → PyTypeModel := fun n => if n = 0 then ⟨"T"⟩ else ⟨"U"⟩

def wdIsSub : PyTypeModel → PyTypeModel → Bool := fun a b => a.name == b.name

def wdDescr : PyWrapperDescriptorModel Nat :=
  ⟨"m", ⟨"T"⟩, fun r args => Except.ok (r + args.length)⟩

theorem wrapperdescr_call_validation_witness :
    wdIsSub (wdClassOf 1) wdDescr.cls = false
    ∧ wrapperDescrCall wdClassOf wdIsSub wdDescr [1]
        = Except.error (PyErr.typeError
            "descriptor \x27m\x27 requires a \x27T\x27 object but received a \x27U\x27")
    ∧ wdIsSub (wdClassOf 0) wdDescr.cls = true
    ∧ wrapperDescrCall wdClassOf wdIsSub wdDescr [0, 7] = Except.ok 2
    ∧ wrapperDescrCall wdClassOf wdIsSub wdDescr []
        = Except.error (PyErr.typeError
            "descriptor \x27m\x27 of \x27T\x27 object needs an argument") := by
  refine ⟨rfl, ?_, rfl, ?_, ?_⟩
  · exact (wrapperdescr_call_validation Nat wdClassOf wdIsSub wdDescr 1 []).2.1 rfl
  · exact (wrapperdescr_call_validation Nat wdClassOf wdIsSub wdDescr 0 [7]).2.2 rfl
  · exact (wrapperdescr_call_validation Nat wdClassOf wdIsSub wdDescr 0 []).1

theorem dictGetitem_ok_of_contains (d : PyDictModel PyObj PyObj) (k : PyObj)
    (h : dictContains d k = true) : ∃ w, dictGetitem d k = Except.ok w := by
  rw [dictContains, List.any_eq_true] at h
  obtain ⟨x, hx, hpx⟩ := h
  have hs : (d.entries.find? (fun e => pyEq e.1 k)).isSome :=
    List.find?_isSome.mpr ⟨x, hx, hpx⟩
  obtain ⟨e, he⟩ := Option.isSome_iff_exists.mp hs
  exact ⟨e.2, by rw [dictGetitem, he]⟩

/-- Claim C9: Items-view containment never raises and holds exactly when the
probe is a 2-element tuple `(k, v)` with `k` a key of the backing mapping
whose stored value is same-or-equal to `v`; a non-tuple probe, a tuple of
another length, a missing key or a mismatched stored value all give
`false`.  The claim's example is included: for `{a:1, b:2}`, containment
of `(b,2)` is true and of `(b,3)` is false. -/
theorem odict_items_contains_characterisation :
    (∀ (d : PyDictModel PyObj PyObj) (needle : PyObj),
      (∃ b, odictItemsContains d needle = Except.ok b)
      ∧ (odictItemsContains d needle = Except.ok true ↔
          ∃ k v, needle = PyObj.tuple [k, v] ∧ dictContains d k = true
            ∧ ∃ w, dictGetitem d k = Except.ok w ∧ pyEq w v = true))
    ∧ odictItemsContains ⟨[(PyObj.str "a", PyObj.int 1), (PyObj.str "b", PyObj.int 2)], 0⟩
        (PyObj.tuple [PyObj.str "b", PyObj.int 2]) = Except.ok true
    ∧ odictItemsContains ⟨[(PyObj.str "a", PyObj.int 1), (PyObj.str "b", PyObj.int 2)], 0⟩
        (PyObj.tuple [PyObj.str "b", PyObj.int 3]) = Except.ok false := by
  refine ⟨?_, by rfl, by rfl⟩
  intro d needle
  cases needle with
  | int n =>
    constructor
    · exact ⟨false, rfl⟩
    · simp [odictItemsContains]
  | str s =>
    constructor
    · exact ⟨false, rfl⟩
    · simp [odictItemsContains]
  | tuple elems =>
    rcases elems with _ | ⟨k, _ | ⟨v, _ | ⟨x, rest⟩⟩⟩
    · constructor
      · exact ⟨false, rfl⟩
      · simp [odictItemsContains]
    · constructor
      · exact ⟨false, rfl⟩
      · simp [odictItemsContains]
    · by_cases hc : dictContains d k = true
      · obtain ⟨w, hw⟩ := dictGetitem_ok_of_contains d k hc
        constructor
        · exact ⟨pyEq w v, by simp [odictItemsContains, hc, hw]⟩
        · constructor
          · intro h
            simp [odictItemsContains, hc, hw] at h
            exact ⟨k, v, rfl, hc, w, hw, h⟩
          · rintro ⟨k', v', heq, hc', w', hw', hpe⟩
            injection heq with helems
            injection helems with hk htail
            injection htail with hv _
            subst hk
            subst hv
            rw [hw] at hw'
            injection hw' with hww
            subst hww
            simp [odictItemsContains, hc, hw, hpe]
      · constructor
        · exact ⟨false, by simp [odictItemsContains, hc]⟩
        · constructor
          · intro h
            simp [odictItemsContains, hc] at h
          · rintro ⟨k', v', heq, hc', -⟩
            injection heq with helems
            injection helems with hk htail
            injection htail with hv _
            subst hk
            exact absurd hc' hc
    · constructor
      · exact ⟨false, rfl⟩
      · simp [odictItemsContains]

/-- Claim C2: For every forward and reverse ordered-mapping view iterator
(the projection `resultFn` is the only thing distinguishing the keys,
values and items kinds): when a `next` call finds the iterator `Active`
but the backing mapping's size signature differing from the snapshot taken
at construction (`new` captures exactly the mapping's signature, last two
conjuncts), it raises the `RuntimeError` "dictionary changed size during
iteration" — not an exhaustion signal — and forces the status to
`Exhausted`; and from an `Exhausted` status every subsequent `next`
reports plain exhaustion. -/
theorem odict_view_iterators_detect_structural_mutation :
    ∀ (κ ω α : Type) (resultFn : κ → ω → α) (s : ODictIterState κ ω) (d : PyDictModel κ ω),
    (s.internal.status = PosIterStatus.Active d → hasChangedSize d s.size = true →
      odictIterNext resultFn s
        = (Except.error (PyErr.runtimeError "dictionary changed size during iteration"),
            { s with internal := { s.internal with status := PosIterStatus.Exhausted } })
      ∧ odictReverseIterNext resultFn s
        = (Except.error (PyErr.runtimeError "dictionary changed size during iteration"),
            { s with internal := { s.internal with status := PosIterStatus.Exhausted } }))
    ∧ (s.internal.status = PosIterStatus.Exhausted →
        (∀ n, (odictIterNext resultFn (stepN (odictIterNext resultFn) n s)).1
          = Except.ok (PyIterReturn.StopIteration none))
        ∧ (∀ n, (odictReverseIterNext resultFn (stepN (odictReverseIterNext resultFn) n s)).1
          = Except.ok (PyIterReturn.StopIteration none)))
    ∧ (odictIterNew d).size = d.sizeSig
    ∧ (odictReverseIterNew d).size = d.sizeSig := by
  intro κ ω α resultFn s d
  refine ⟨?_, ?_, rfl, rfl⟩
  · intro hact hch
    constructor
    · show odictIterNext resultFn s = _
      rw [odictIterNext]
      rw [hact]
      simp [hch]
    · rw [odictReverseIterNext]
      rw [hact]
      simp [hch]
  · intro hexh
    have hfix : ∀ n, stepN (odictIterNext resultFn) n s = s := by
      intro n
      induction n with
      | zero => rfl
      | succ n ih =>
        rw [stepN_succ_right, ih]
        show (odictIterNext resultFn s).2 = s
        rw [odictIterNext, hexh]
    have hfixr : ∀ n, stepN (odictReverseIterNext resultFn) n s = s := by
      intro n
      induction n with
      | zero => rfl
      | succ n ih =>
        rw [stepN_succ_right, ih]
        show (odictReverseIterNext resultFn s).2 = s
        rw [odictReverseIterNext, hexh]
    constructor
    · intro n
      rw [hfix, odictIterNext, hexh]
    · intro n
      rw [hfixr, odictReverseIterNext, hexh]

/-- A mapping whose signature advanced to 5 after the iterator snapshotted
4 — the shape left by inserting a key mid-iteration. -/
def c2dict : PyDictModel Nat Nat := ⟨[(1, 2)], 5⟩

def c2state : ODictIterState Nat Nat := ⟨4, ⟨PosIterStatus.Active c2dict, 0⟩⟩

def c2exh : ODictIterState Nat Nat := ⟨4, ⟨PosIterStatus.Exhausted, 0⟩⟩

theorem odict_view_iterators_detect_structural_mutation_witness :
    hasChangedSize c2dict c2state.size = true
    ∧ (odictIterNext (fun (k _ : Nat) => k) c2state).1
        = Except.error (PyErr.runtimeError "dictionary changed size during iteration")
    ∧ (odictReverseIterNext (fun (k _ : Nat) => k) c2state).1
        = Except.error (PyErr.runtimeError "dictionary changed size during iteration")
    ∧ (odictIterNext (fun (k _ : Nat) => k)
        (stepN (odictIterNext (fun (k _ : Nat) => k)) 3 c2exh)).1
        = Except.ok (PyIterReturn.StopIteration none) := by
  have h := odict_view_iterators_detect_structural_mutation Nat Nat Nat
    (fun k _ => k) c2state c2dict
  have h2 := odict_view_iterators_detect_structural_mutation Nat Nat Nat
    (fun k _ => k) c2exh c2dict
  refine ⟨rfl, ?_, ?_, ?_⟩
  · rw [(h.1 rfl rfl).1]
  · rw [(h.1 rfl rfl).2]
  · exact (h2.2.1 rfl).1 3

/-- The current length of a list subject, as the host `obj_len_opt` would
report it. -/
def listLenOf {α : Type} (l : List α) : Int :=
  (l.length : Int)

/-- Claim C5, counterexample: Restoring position `-1` on an `Active`
reverse-sequence iterator over a 3-element subject stores `-1` itself: the
stored position is *not* clamped into `[0, length-1]` as the claim states
— the code only takes `min` with `length - 1` and never clamps from
below. -/
theorem revsetstate_not_clamped_below_counterexample :
    (revSeqSetstate listLenOf
      (⟨1, RevIterStatus.Active, [(10 : Int), 20, 30]⟩ : PyRevSeqIterState (List Int))
      (-1)).position = -1
    ∧ ¬ (0 ≤ (revSeqSetstate listLenOf
      (⟨1, RevIterStatus.Active, [(10 : Int), 20, 30]⟩ : PyRevSeqIterState (List Int))
      (-1)).position) := by
  constructor
  · rfl
  · intro h
    have : (revSeqSetstate listLenOf
      (⟨1, RevIterStatus.Active, [(10 : Int), 20, 30]⟩ : PyRevSeqIterState (List Int))
      (-1)).position = -1 := rfl
    rw [this] at h
    exact absurd h (by decide)

/-- Claim C5, amended: Restoring persisted state on a reverse-sequence
iterator that is not `Exhausted` stores `min(p, length - 1)`, where `p` is
the supplied position (`0` when it is not representable as a machine
index) and `length` is the *current* length of the subject — i.e. the
position is clamped from above to `length - 1` but not from below, so in
particular a supplied position that is non-negative and representable is
stored as `min(state, length - 1)`; restoring on an already-`Exhausted`
iterator is a no-op that changes nothing. -/
theorem revsetstate_clamps_above_only :
    ∀ (σ : Type) (lenOf : σ → Int) (it : PyRevSeqIterState σ) (state : Int),
    (it.status = RevIterStatus.Exhausted → revSeqSetstate lenOf it state = it)
    ∧ (it.status = RevIterStatus.Active →
        revSeqSetstate lenOf it state
          = { it with position :=
                (min (if inIsizeRange state then state else 0) (lenOf it.obj - 1)) }
        ∧ (inIsizeRange state = true →
            (revSeqSetstate lenOf it state).position
              = min state (lenOf it.obj - 1))) := by
  intro σ lenOf it state
  constructor
  · intro h
    rw [revSeqSetstate, h]
  · intro h
    constructor
    · rw [revSeqSetstate, h]
    · intro hrange
      rw [revSeqSetstate, h]
      simp [hrange]

theorem revsetstate_clamps_above_only_witness :
    (revSeqSetstate listLenOf
        (⟨1, RevIterStatus.Active, [(10 : Int), 20, 30]⟩ : PyRevSeqIterState (List Int))
        5).position = 2
    ∧ revSeqSetstate listLenOf
        (⟨1, RevIterStatus.Exhausted, [(10 : Int), 20, 30]⟩ : PyRevSeqIterState (List Int))
        0
      = (⟨1, RevIterStatus.Exhausted, [(10 : Int), 20, 30]⟩ : PyRevSeqIterState (List Int)) := by
  constructor
  · have h := (revsetstate_clamps_above_only (List Int) listLenOf
      ⟨1, RevIterStatus.Active, [(10 : Int), 20, 30]⟩ 5).2 rfl
    rw [h.2 rfl]
    rfl
  · exact (revsetstate_clamps_above_only (List Int) listLenOf
      ⟨1, RevIterStatus.Exhausted, [(10 : Int), 20, 30]⟩ 0).1 rfl

theorem stepN_add {T R : Type} (next : T → R × T) (a b : Nat) (t : T) :
    stepN next (a + b) t = stepN next b (stepN next a t) := by
  induction a generalizing t with
  | zero =>
    rw [Nat.zero_add]
    rfl
  | succ a ih =>
    rw [show a + 1 + b = (a + b) + 1 from by omega]
    show stepN next (a + b) (stepState next t) = _
    rw [ih]
    rfl

theorem revSeqNext_exhausted {σ α : Type} (getItem : σ → Int → Except PyErr α)
    (it : PyRevSeqIterState σ) (h : it.status = RevIterStatus.Exhausted) :
    revSeqNext getItem it = (Except.error PyErr.stopIteration, it) := by
  rw [revSeqNext, h]

theorem revSeq_exhausted_fix {σ α : Type} (getItem : σ → Int → Except PyErr α)
    (it : PyRevSeqIterState σ) (h : it.status = RevIterStatus.Exhausted) :
    ∀ m, stepN (revSeqNext getItem) m it = it := by
  intro m
  induction m with
  | zero => rfl
  | succ m ih =>
    rw [stepN_succ_right, ih]
    show (revSeqNext getItem it).2 = it
    rw [revSeqNext_exhausted getItem it h]

theorem listGetItem_ok {α : Type} (l : List α) (i : Int) (h0 : 0 ≤ i)
    (hidx : i.toNat < l.length) :
    listGetItem l i = Except.ok (l.get ⟨i.toNat, hidx⟩) := by
  rw [listGetItem, if_pos h0, List.get?_eq_get hidx]

/-- The reverse iteration invariant over a list subject: after `k ≤ n`
calls (each yielding), the cursor sits at `n - 1 - k` and the iterator is
still `Active`. -/
theorem revRunList_state {α : Type} (l : List α) (hl : 0 < l.length) :
    ∀ k, k ≤ l.length →
      stepN (revSeqNext (listGetItem (α := α))) k (revSeqNew l (l.length : Int))
        = ⟨(l.length : Int) - 1 - k, RevIterStatus.Active, l⟩ := by
  intro k
  induction k with
  | zero =>
    intro _
    show revSeqNew l (l.length : Int) = _
    rw [revSeqNew]
    have hne : ((l.length : Int)) ≠ 0 := by omega
    simp [hne]
  | succ k ih =>
    intro hk
    rw [stepN_succ_right, ih (by omega)]
    show (revSeqNext (listGetItem (α := α)) ⟨(l.length : Int) - 1 - k, RevIterStatus.Active, l⟩).2 = _
    have hpos : (0 : Int) ≤ (l.length : Int) - 1 - k := by omega
    have hidx : ((l.length : Int) - 1 - k).toNat < l.length := by omega
    simp [revSeqNext, hpos, listGetItem_ok l _ hpos hidx]
    omega

theorem revRunList_yields {α : Type} (l : List α) (k : Nat) (d : α) (hk : k < l.length) :
    (revSeqNext (listGetItem (α := α))
      (stepN (revSeqNext (listGetItem (α := α))) k (revSeqNew l (l.length : Int)))).1
      = Except.ok (l.getD (l.length - 1 - k) d) := by
  rw [revRunList_state l (by omega) k (by omega)]
  have hpos : (0 : Int) ≤ (l.length : Int) - 1 - k := by omega
  have hidx : ((l.length : Int) - 1 - k).toNat < l.length := by omega
  simp [revSeqNext, hpos, listGetItem_ok l _ hpos hidx]
  have hidx2 : l.length - 1 - k < l.length := by omega
  rw [List.getElem?_eq_getElem hidx2]
  simp

theorem revRunList_stops {α : Type} (l : List α) (m : Nat) (hm : l.length ≤ m) :
    (revSeqNext (listGetItem (α := α))
      (stepN (revSeqNext (listGetItem (α := α))) m (revSeqNew l (l.length : Int)))).1
      = Except.error PyErr.stopIteration := by
  rcases Nat.eq_zero_or_pos l.length with h0 | hpos
  · have hinit : (revSeqNew l (l.length : Int)).status = RevIterStatus.Exhausted := by
      rw [revSeqNew]
      simp [h0]
    rw [revSeq_exhausted_fix _ _ hinit m, revSeqNext_exhausted _ _ hinit]
  · have hA := revRunList_state l hpos l.length le_rfl
    have hcallA : revSeqNext (listGetItem (α := α))
        (⟨(l.length : Int) - 1 - l.length, RevIterStatus.Active, l⟩ : PyRevSeqIterState (List α))
        = (Except.error PyErr.stopIteration,
            ⟨(l.length : Int) - 1 - l.length - 1, RevIterStatus.Exhausted, l⟩) := by
      have hneg : ¬ ((0 : Int) ≤ (l.length : Int) - 1 - l.length) := by omega
      simp [revSeqNext, hneg]
    rcases Nat.lt_or_ge m (l.length + 1) with hlt | hge
    · have hm2 : m = l.length := by omega
      subst hm2
      rw [hA, hcallA]
    · obtain ⟨j, hj⟩ : ∃ j, m = l.length + 1 + j := ⟨m - l.length - 1, by omega⟩
      subst hj
      have hstep1 : stepN (revSeqNext (listGetItem (α := α))) (l.length + 1)
          (revSeqNew l (l.length : Int))
          = ⟨(l.length : Int) - 1 - l.length - 1, RevIterStatus.Exhausted, l⟩ := by
        rw [stepN_succ_right, hA]
        show (revSeqNext (listGetItem (α := α)) _).2 = _
        rw [hcallA]
      rw [stepN_add, hstep1, revSeq_exhausted_fix _ _ rfl j, revSeqNext_exhausted _ _ rfl]

/-- Claim C4: Reverse-sequence iteration: a zero-length subject starts
`Exhausted` and its first `next` yields exhaustion; over a list subject of
length `n`, the `k`-th call (`k < n`) yields the item at index
`n - 1 - k` — i.e. the items at `n-1, n-2, ..., 0` in order — and every
call from the `n`-th on yields exhaustion; and when the underlying item
access raises an `IndexError`-class condition the call reports ordinary
exhaustion (the stop signal, not the error) and forces the iterator to
`Exhausted`. -/
theorem reverse_sequence_iterator_traversal :
    (∀ (σ α : Type) (getItem : σ → Int → Except PyErr α) (obj : σ),
      (revSeqNew obj 0).status = RevIterStatus.Exhausted
      ∧ revSeqNext getItem (revSeqNew obj 0)
          = (Except.error PyErr.stopIteration, revSeqNew obj 0))
    ∧ (∀ (α : Type) (l : List α) (k : Nat) (d : α), k < l.length →
        (revSeqNext (listGetItem (α := α))
          (stepN (revSeqNext (listGetItem (α := α))) k (revSeqNew l (l.length : Int)))).1
          = Except.ok (l.getD (l.length - 1 - k) d))
    ∧ (∀ (α : Type) (l : List α) (m : Nat), l.length ≤ m →
        (revSeqNext (listGetItem (α := α))
          (stepN (revSeqNext (listGetItem (α := α))) m (revSeqNew l (l.length : Int)))).1
          = Except.error PyErr.stopIteration)
    ∧ (∀ (σ α : Type) (getItem : σ → Int → Except PyErr α)
        (it : PyRevSeqIterState σ) (msg : String),
        it.status = RevIterStatus.Active → 0 ≤ it.position →
        getItem it.obj it.position = Except.error (PyErr.indexError msg) →
        revSeqNext getItem it
          = (Except.error PyErr.stopIteration,
              ⟨it.position - 1, RevIterStatus.Exhausted, it.obj⟩)) := by
  refine ⟨?_, ?_, ?_, ?_⟩
  · intro σ α getItem obj
    refine ⟨rfl, ?_⟩
    exact revSeqNext_exhausted getItem (revSeqNew obj 0) rfl
  · intro α l k d hk
    exact revRunList_yields l k d hk
  · intro α l m hm
    exact revRunList_stops l m hm
  · intro σ α getItem it msg hact hpos hgot
    rw [revSeqNext, hact]
    simp [hpos, hgot]

theorem reverse_sequence_iterator_traversal_witness :
    ((0 : Nat) < ([10, 20, 30] : List Nat).length
      ∧ (revSeqNext (listGetItem (α := Nat))
          (stepN (revSeqNext (listGetItem (α := Nat))) 0
            (revSeqNew ([10, 20, 30] : List Nat) (([10, 20, 30] : List Nat).length : Int)))).1
        = Except.ok 30)
    ∧ (revSeqNext (listGetItem (α := Nat))
        (stepN (revSeqNext (listGetItem (α := Nat))) 2
          (revSeqNew ([10, 20, 30] : List Nat) (([10, 20, 30] : List Nat).length : Int)))).1
      = Except.ok 10
    ∧ (revSeqNext (listGetItem (α := Nat))
        (stepN (revSeqNext (listGetItem (α := Nat))) 5
          (revSeqNew ([10, 20, 30] : List Nat) (([10, 20, 30] : List Nat).length : Int)))).1
      = Except.error PyErr.stopIteration
    ∧ revSeqNext
        (fun (_ : Unit) (_ : Int) => (Except.error (PyErr.indexError "boom") : Except PyErr Nat))
        (⟨0, RevIterStatus.Active, ()⟩ : PyRevSeqIterState Unit)
      = (Except.error PyErr.stopIteration, ⟨-1, RevIterStatus.Exhausted, ()⟩) := by
  refine ⟨⟨by decide, ?_⟩, ?_, ?_, ?_⟩
  · exact reverse_sequence_iterator_traversal.2.1 Nat [10, 20, 30] 0 0 (by decide)
  · exact reverse_sequence_iterator_traversal.2.1 Nat [10, 20, 30] 2 0 (by decide)
  · exact reverse_sequence_iterator_traversal.2.2.1 Nat [10, 20, 30] 5 (by decide)
  · exact reverse_sequence_iterator_traversal.2.2.2 Unit Nat
      (fun _ _ => (Except.error (PyErr.indexError "boom") : Except PyErr Nat))
      ⟨0, RevIterStatus.Active, ()⟩ "boom" rfl (by decide) rfl

/-- The enumerate run invariant: while every pull from the sub-iterator
succeeds, after `k` calls the counter is exactly `start + k` and the
sub-iterator has been stepped exactly `k` times. -/
theorem enumRun_state {σ α : Type} (step : σ → Except PyErr α × σ) (s0 : σ) (start : Int) :
    ∀ k, (∀ j, j < k → ∃ w, (step (stepN step j s0)).1 = Except.ok w) →
      stepN (enumNext step) k (enumNew s0 start)
        = ⟨start + k, stepN step k s0⟩ := by
  intro k
  induction k with
  | zero =>
    intro _
    show enumNew s0 start = _
    simp [enumNew, stepN]
  | succ k ih =>
    intro hsucc
    rw [stepN_succ_right, ih (fun j hj => hsucc j (by omega))]
    obtain ⟨w, hw⟩ := hsucc k (by omega)
    have hp : step (stepN step k s0) = (Except.ok w, (step (stepN step k s0)).2) := by
      rw [← hw]
    show (enumNext step ⟨start + k, stepN step k s0⟩).2 = _
    rw [enumNext]
    rw [hp]
    rw [stepN_succ_right]
    show (⟨start + k + 1, (step (stepN step k s0)).2⟩ : PyEnumerateState σ) = _
    have : start + (k : Int) + 1 = start + ((k : Nat) + 1 : Nat) := by push_cast; ring
    rw [this]
    rfl

/-- Claim C6: enumerate with start value `start` over a sub-iterator: a
single successful pull returns the pair `(counter, item)` and only then
increments the counter; any failed pull — exhaustion included —
propagates as-is with the counter untouched; and, iterated, while the
first `k` pulls succeed the `k`-th call (0-indexed) returns exactly
`(start + k, item_k)` with `item_k` the `k`-th item pulled from the
sub-iterator — the counter is an unbounded integer, so `start + k` is
exact for every `start` and `k`. -/
theorem enumerate_counter_exact :
    (∀ (σ α : Type) (step : σ → Except PyErr α × σ) (e : PyEnumerateState σ) (v : α) (s' : σ),
      step e.iterator = (Except.ok v, s') →
      enumNext step e = (Except.ok (e.counter, v), ⟨e.counter + 1, s'⟩))
    ∧ (∀ (σ α : Type) (step : σ → Except PyErr α × σ) (e : PyEnumerateState σ) (err : PyErr) (s' : σ),
      step e.iterator = (Except.error err, s') →
      enumNext step e = (Except.error err, ⟨e.counter, s'⟩))
    ∧ (∀ (σ α : Type) (step : σ → Except PyErr α × σ) (s0 : σ) (start : Int) (k : Nat) (v : α),
      (∀ j, j < k → ∃ w, (step (stepN step j s0)).1 = Except.ok w) →
      (step (stepN step k s0)).1 = Except.ok v →
      (enumNext step (stepN (enumNext step) k (enumNew s0 start))).1
        = Except.ok (start + k, v)) := by
  refine ⟨?_, ?_, ?_⟩
  · intro σ α step e v s' h
    rw [enumNext, h]
  · intro σ α step e err s' h
    rw [enumNext, h]
  · intro σ α step s0 start k v hsucc hv
    rw [enumRun_state step s0 start k hsucc]
    have hp : step (stepN step k s0) = (Except.ok v, (step (stepN step k s0)).2) := by
      rw [← hv]
    rw [enumNext]
    rw [hp]

theorem enumerate_counter_exact_witness :
    (enumNext (liftIterP listPull)
      (stepN (enumNext (liftIterP listPull)) 0 (enumNew ["x", "y"] 5))).1
      = Except.ok ((5 : Int), "x")
    ∧ (enumNext (liftIterP listPull)
      (stepN (enumNext (liftIterP listPull)) 1 (enumNew ["x", "y"] 5))).1
      = Except.ok ((6 : Int), "y")
    ∧ enumNext (liftIterP listPull) (⟨7, ([] : List String)⟩ : PyEnumerateState (List String))
      = (Except.error PyErr.stopIteration, ⟨7, []⟩) := by
  refine ⟨?_, ?_, ?_⟩
  · exact enumerate_counter_exact.2.2 (List String) String (liftIterP listPull)
      ["x", "y"] 5 0 "x" (by intro j hj; omega) rfl
  · exact enumerate_counter_exact.2.2 (List String) String (liftIterP listPull)
      ["x", "y"] 5 1 "y"
      (by
        intro j hj
        have hj0 : j = 0 := by omega
        subst hj0
        exact ⟨"x", rfl⟩) rfl
  · exact enumerate_counter_exact.2.1 (List String) String (liftIterP listPull)
      ⟨7, []⟩ PyErr.stopIteration [] rfl

theorem mapCollect_all_yield {α : Type} (d : α) :
    ∀ (ls : List (List α)), (∀ l ∈ ls, l ≠ []) →
      mapCollect (liftIterP listPull) ls
        = (Except.ok (ls.map (fun l => l.getD 0 d)), ls.map List.tail) := by
  intro ls
  induction ls with
  | nil => intro _; rfl
  | cons h rest ih =>
    intro hne
    cases h with
    | nil => exact absurd rfl (hne [] (by simp))
    | cons a t =>
      have hr := ih (fun l hl => hne l (by simp [hl]))
      simp only [mapCollect, liftIterP, listPull, hr]
      rfl

theorem mapCollect_all_yield_ex {α : Type} :
    ∀ (ls : List (List α)), (∀ l ∈ ls, l ≠ []) →
      ∃ vs, mapCollect (liftIterP listPull) ls
        = (Except.ok vs, ls.map List.tail) := by
  intro ls
  induction ls with
  | nil => intro _; exact ⟨[], rfl⟩
  | cons h rest ih =>
    intro hne
    cases h with
    | nil => exact absurd rfl (hne [] (by simp))
    | cons a t =>
      obtain ⟨vs, hvs⟩ := ih (fun l hl => hne l (by simp [hl]))
      refine ⟨a :: vs, ?_⟩
      simp only [mapCollect, liftIterP, listPull, hvs]
      rfl

theorem mapRun_state {α β : Type} (f : List α → Except PyErr β) (ls : List (List α)) :
    ∀ k, (∀ l ∈ ls, k ≤ l.length) →
      stepN (mapNext (liftIterP listPull)) k (⟨f, ls⟩ : PyMapState (List α) α β)
        = ⟨f, ls.map (List.drop k)⟩ := by
  intro k
  induction k with
  | zero =>
    intro _
    show (⟨f, ls⟩ : PyMapState (List α) α β) = _
    have hfun : (List.drop 0 : List α → List α) = id := funext fun l => rfl
    rw [hfun, List.map_id]
  | succ k ih =>
    intro hk
    rw [stepN_succ_right, ih (fun l hl => by have := hk l hl; omega)]
    show (mapNext (liftIterP listPull) ⟨f, ls.map (List.drop k)⟩).2 = _
    have hne : ∀ l ∈ ls.map (List.drop k), l ≠ [] := by
      intro l hl
      obtain ⟨l0, hl0, rfl⟩ := List.mem_map.mp hl
      have := hk l0 hl0
      intro hemp
      have h2 : (l0.drop k).length = 0 := by rw [hemp]; rfl
      rw [List.length_drop] at h2
      omega
    obtain ⟨vs, hvs⟩ := mapCollect_all_yield_ex (ls.map (List.drop k)) hne
    rw [mapNext, hvs]
    show (⟨f, (ls.map (List.drop k)).map List.tail⟩ : PyMapState (List α) α β) = _
    rw [List.map_map]
    have hcomp : (List.tail ∘ List.drop k : List α → List α) = List.drop (k + 1) := by
      funext l
      show (l.drop k).tail = l.drop (k + 1)
      rw [List.tail_drop]
    rw [hcomp]

theorem mapCollect_stop_of_empty {α : Type} :
    ∀ (ls : List (List α)), (∃ l, l ∈ ls ∧ l = []) →
      ∃ states, mapCollect (liftIterP listPull) ls
          = (Except.error PyErr.stopIteration, states)
        ∧ ∃ l', l' ∈ states ∧ l' = [] := by
  intro ls
  induction ls with
  | nil =>
    rintro ⟨l, hl, -⟩
    exact absurd hl (List.not_mem_nil l)
  | cons h rest ih =>
    rintro ⟨l, hl, hleq⟩
    cases h with
    | nil =>
      refine ⟨[] :: rest, ?_, [], by simp⟩
      rfl
    | cons a t =>
      have hlr : l ∈ rest := by
        rcases List.mem_cons.mp hl with heq | hmem
        · rw [heq] at hleq; exact absurd hleq (by simp)
        · exact hmem
      obtain ⟨sts, hsts, l', hl', hl'eq⟩ := ih ⟨l, hlr, hleq⟩
      refine ⟨t :: sts, ?_, l', by simp [hl'], hl'eq⟩
      simp only [mapCollect, liftIterP, listPull, hsts]

theorem mapRun_has_empty {α β : Type} (f : List α → Except PyErr β) (ls : List (List α)) :
    ∀ k, (∃ l, l ∈ ls ∧ l.length ≤ k) →
      ∃ l', l' ∈ (stepN (mapNext (liftIterP listPull)) k
        (⟨f, ls⟩ : PyMapState (List α) α β)).iterators ∧ l' = [] := by
  intro k
  induction k with
  | zero =>
    rintro ⟨l, hl, hlen⟩
    exact ⟨l, hl, List.eq_nil_of_length_eq_zero (by omega)⟩
  | succ k ih =>
    intro hex
    by_cases hexk : ∃ l, l ∈ ls ∧ l.length ≤ k
    · obtain ⟨l', hl', hl'eq⟩ := ih hexk
      obtain ⟨sts, hcol, l'', hl'', hl''eq⟩ :=
        mapCollect_stop_of_empty _ ⟨l', hl', hl'eq⟩
      rw [stepN_succ_right]
      show ∃ l'', l'' ∈ (mapNext (liftIterP listPull)
        (stepN (mapNext (liftIterP listPull)) k ⟨f, ls⟩)).2.iterators ∧ l'' = []
      rw [mapNext, hcol]
      exact ⟨l'', hl'', hl''eq⟩
    · push_neg at hexk
      have hall : ∀ l ∈ ls, k + 1 ≤ l.length := by
        intro l hl
        have := hexk l hl
        omega
      rw [mapRun_state f ls (k + 1) hall]
      obtain ⟨l, hl, hlen⟩ := hex
      refine ⟨l.drop (k + 1), List.mem_map.mpr ⟨l, hl, rfl⟩, ?_⟩
      rw [List.drop_eq_nil_iff]
      omega

/-- Claim C7: map over a transform `f` and sub-iterators: any collection
failure — the first sub-iterator exhaustion included — propagates before
the transform is invoked (first conjunct, for any sub-iterator model);
over list sources, while `k` is below every source's length the `k`-th
call returns exactly the transform applied positionally to the `k`-th
items, and as soon as `k` reaches the length of some source — i.e. from
`min(L1, ..., LN)` on, regardless of the longer sources — every call
reports exhaustion, for every transform.  Hence the map yields exactly
`min(L1, ..., LN)` transformed items. -/
theorem map_shortest_stop :
    (∀ (σ α β : Type) (step : σ → Except PyErr α × σ) (m : PyMapState σ α β)
      (e : PyErr) (states : List σ),
      mapCollect step m.iterators = (Except.error e, states) →
      mapNext step m = (Except.error e, ⟨m.mapper, states⟩))
    ∧ (∀ (α β : Type) (f : List α → Except PyErr β) (ls : List (List α)) (k : Nat) (d : α),
      (∀ l ∈ ls, k < l.length) →
      (mapNext (liftIterP listPull)
        (stepN (mapNext (liftIterP listPull)) k (⟨f, ls⟩ : PyMapState (List α) α β))).1
        = f (ls.map (fun l => l.getD k d)))
    ∧ (∀ (α β : Type) (f : List α → Except PyErr β) (ls : List (List α)) (k : Nat),
      (∃ l, l ∈ ls ∧ l.length ≤ k) →
      (mapNext (liftIterP listPull)
        (stepN (mapNext (liftIterP listPull)) k (⟨f, ls⟩ : PyMapState (List α) α β))).1
        = Except.error PyErr.stopIteration) := by
  refine ⟨?_, ?_, ?_⟩
  · intro σ α β step m e states hcol
    rw [mapNext, hcol]
  · intro α β f ls k d hk
    rw [mapRun_state f ls k (fun l hl => by have := hk l hl; omega)]
    have hne : ∀ l ∈ ls.map (List.drop k), l ≠ [] := by
      intro l hl
      obtain ⟨l0, hl0, rfl⟩ := List.mem_map.mp hl
      have := hk l0 hl0
      intro hemp
      have h2 : (l0.drop k).length = 0 := by rw [hemp]; rfl
      rw [List.length_drop] at h2
      omega
    rw [mapNext, mapCollect_all_yield d _ hne]
    show f ((ls.map (List.drop k)).map (fun l => l.getD 0 d)) = _
    rw [List.map_map]
    have hcomp : ((fun l => l.getD 0 d) ∘ List.drop k : List α → α)
        = fun l => l.getD k d := by
      funext l
      show (l.drop k).getD 0 d = l.getD k d
      rw [List.getD_eq_getElem?_getD, List.getD_eq_getElem?_getD, List.getElem?_drop]
      rw [Nat.add_zero]
    rw [hcomp]
  · intro α β f ls k hex
    obtain ⟨l', hl', hl'eq⟩ := mapRun_has_empty f ls k hex
    obtain ⟨sts, hcol, -⟩ := mapCollect_stop_of_empty _ ⟨l', hl', hl'eq⟩
    rw [mapNext, hcol]

theorem map_shortest_stop_witness :
    (mapNext (liftIterP listPull)
      (stepN (mapNext (liftIterP listPull)) 0
        (⟨fun xs => Except.ok (xs.foldl (· + ·) 0), [[1, 2, 3], [1, 2]]⟩
          : PyMapState (List Nat) Nat Nat))).1 = Except.ok 2
    ∧ (mapNext (liftIterP listPull)
      (stepN (mapNext (liftIterP listPull)) 1
        (⟨fun xs => Except.ok (xs.foldl (· + ·) 0), [[1, 2, 3], [1, 2]]⟩
          : PyMapState (List Nat) Nat Nat))).1 = Except.ok 4
    ∧ (mapNext (liftIterP listPull)
      (stepN (mapNext (liftIterP listPull)) 2
        (⟨fun xs => Except.ok (xs.foldl (· + ·) 0), [[1, 2, 3], [1, 2]]⟩
          : PyMapState (List Nat) Nat Nat))).1 = Except.error PyErr.stopIteration
    ∧ (mapNext (liftIterP listPull)
      (stepN (mapNext (liftIterP listPull)) 5
        (⟨fun xs => Except.ok (xs.foldl (· + ·) 0), [[1, 2, 3], [1, 2]]⟩
          : PyMapState (List Nat) Nat Nat))).1 = Except.error PyErr.stopIteration
    ∧ mapNext (liftIterP listPull)
        (⟨fun xs => Except.ok (xs.foldl (· + ·) 0), [[], [1]]⟩
          : PyMapState (List Nat) Nat Nat)
      = (Except.error PyErr.stopIteration,
          ⟨fun xs => Except.ok (xs.foldl (· + ·) 0), [[], [1]]⟩) := by
  refine ⟨?_, ?_, ?_, ?_, ?_⟩
  · exact map_shortest_stop.2.1 Nat Nat (fun xs => Except.ok (xs.foldl (· + ·) 0))
      [[1, 2, 3], [1, 2]] 0 0 (by decide)
  · exact map_shortest_stop.2.1 Nat Nat (fun xs => Except.ok (xs.foldl (· + ·) 0))
      [[1, 2, 3], [1, 2]] 1 0 (by decide)
  · exact map_shortest_stop.2.2 Nat Nat (fun xs => Except.ok (xs.foldl (· + ·) 0))
      [[1, 2, 3], [1, 2]] 2 ⟨[1, 2], by simp, by decide⟩
  · exact map_shortest_stop.2.2 Nat Nat (fun xs => Except.ok (xs.foldl (· + ·) 0))
      [[1, 2, 3], [1, 2]] 5 ⟨[1, 2], by simp, by decide⟩
  · exact map_shortest_stop.1 (List Nat) Nat Nat (liftIterP listPull)
      ⟨fun xs => Except.ok (xs.foldl (· + ·) 0), [[], [1]]⟩
      PyErr.stopIteration [[], [1]] rfl

theorem liftIterZ_none {σ α : Type} (g : σ → Option α × σ) (s : σ)
    (h : (g s).1 = none) :
    liftIterZ g s = (Except.ok (PyIterReturn.StopIteration none), (g s).2) := by
  rw [liftIterZ]
  have : g s = (none, (g s).2) := by
    rw [← h]
  rw [this]

theorem liftIterZ_some {σ α : Type} (g : σ → Option α × σ) (s : σ) (x : α)
    (h : (g s).1 = some x) :
    liftIterZ g s = (Except.ok (PyIterReturn.Return x), (g s).2) := by
  rw [liftIterZ]
  have : g s = (some x, (g s).2) := by
    rw [← h]
  rw [this]

theorem zipPullAux_nofail {σ α : Type} (g : σ → Option α × σ) :
    ∀ (l : List σ) (i : Nat) (e : PyErr) (sts : List σ),
      zipPullAux (liftIterZ g) l i ≠ ZipPull.failed e sts := by
  intro l
  induction l with
  | nil => intro i e sts h; exact ZipPull.noConfusion h
  | cons s rest ih =>
    intro i e sts h
    cases hgs : (g s).1 with
    | none =>
      rw [zipPullAux, liftIterZ_none g s hgs] at h
      exact ZipPull.noConfusion h
    | some x =>
      rw [zipPullAux, liftIterZ_some g s x hgs] at h
      revert h
      cases hpr : zipPullAux (liftIterZ g) rest (i + 1) with
      | objs xs sts' => intro h; exact ZipPull.noConfusion h
      | stopAt j v sts' => intro h; exact ZipPull.noConfusion h
      | failed e' sts' => intro _; exact ih (i + 1) e' sts' hpr

theorem zipPullAux_stop_lb {σ α : Type} (g : σ → Option α × σ) :
    ∀ (l : List σ) (i : Nat) (j : Nat) (v : Option α) (sts : List σ),
      zipPullAux (liftIterZ g) l i = ZipPull.stopAt j v sts → i ≤ j := by
  intro l
  induction l with
  | nil => intro i j v sts h; exact ZipPull.noConfusion h
  | cons s rest ih =>
    intro i j v sts h
    cases hgs : (g s).1 with
    | none =>
      rw [zipPullAux, liftIterZ_none g s hgs] at h
      injection h with h1 _
      omega
    | some x =>
      rw [zipPullAux, liftIterZ_some g s x hgs] at h
      revert h
      cases hpr : zipPullAux (liftIterZ g) rest (i + 1) with
      | objs xs sts' => intro h; exact ZipPull.noConfusion h
      | stopAt j' v' sts' =>
        intro h
        injection h with h1 h2 h3
        have := ih (i + 1) j' v' sts' hpr
        omega
      | failed e' sts' => intro h; exact ZipPull.noConfusion h

theorem zipPullAux_stop_member {σ α : Type} (g : σ → Option α × σ) (hg : PureSticky g) :
    ∀ (l : List σ) (i : Nat) (j : Nat) (v : Option α) (sts : List σ),
      zipPullAux (liftIterZ g) l i = ZipPull.stopAt j v sts →
      ∃ s', s' ∈ sts ∧ (g s').1 = none := by
  intro l
  induction l with
  | nil => intro i j v sts h; exact ZipPull.noConfusion h
  | cons s rest ih =>
    intro i j v sts h
    cases hgs : (g s).1 with
    | none =>
      rw [zipPullAux, liftIterZ_none g s hgs] at h
      injection h with _ _ h3
      refine ⟨(g s).2, ?_, hg s hgs⟩
      rw [← h3]
      simp
    | some x =>
      rw [zipPullAux, liftIterZ_some g s x hgs] at h
      revert h
      cases hpr : zipPullAux (liftIterZ g) rest (i + 1) with
      | objs xs sts' => intro h; exact ZipPull.noConfusion h
      | stopAt j' v' sts' =>
        intro h
        injection h with _ _ h3
        obtain ⟨s', hmem, hs'⟩ := ih (i + 1) j' v' sts' hpr
        refine ⟨s', ?_, hs'⟩
        rw [← h3]
        simp [hmem]
      | failed e' sts' => intro h; exact ZipPull.noConfusion h

theorem zipPullAux_ex_stop {σ α : Type} (g : σ → Option α × σ) (hg : PureSticky g) :
    ∀ (l : List σ) (i : Nat), (∃ s, s ∈ l ∧ (g s).1 = none) →
      ∃ j v sts, zipPullAux (liftIterZ g) l i = ZipPull.stopAt j v sts
        ∧ ∃ s', s' ∈ sts ∧ (g s').1 = none := by
  intro l
  induction l with
  | nil =>
    rintro i ⟨s, hs, -⟩
    exact absurd hs (List.not_mem_nil s)
  | cons s rest ih =>
    rintro i ⟨w, hw, hwnone⟩
    cases hgs : (g s).1 with
    | none =>
      refine ⟨i, none, (g s).2 :: rest, ?_, (g s).2, by simp, hg s hgs⟩
      rw [zipPullAux, liftIterZ_none g s hgs]
    | some x =>
      have hwr : w ∈ rest := by
        rcases List.mem_cons.mp hw with heq | hmem
        · rw [heq] at hwnone; rw [hwnone] at hgs; exact Option.noConfusion hgs
        · exact hmem
      obtain ⟨j, v, sts, hpr, s', hmem, hs'⟩ := ih (i + 1) ⟨w, hwr, hwnone⟩
      refine ⟨j, v, (g s).2 :: sts, ?_, s', by simp [hmem], hs'⟩
      rw [zipPullAux, liftIterZ_some g s x hgs, hpr]

theorem zipNext_cons_nonstrict_stopAt {σ α : Type}
    (step : σ → Except PyErr (PyIterReturn α) × σ) (mkT : List α → α)
    (s : σ) (rest : List σ) (j : Nat) (v : Option α) (sts : List σ)
    (hpull : zipPullAux step (s :: rest) 0 = ZipPull.stopAt j v sts) :
    zipNext step mkT ⟨s :: rest, false⟩
      = (Except.ok (PyIterReturn.StopIteration v), ⟨sts, false⟩) := by
  rw [zipNext]
  simp [hpull]

theorem zipNext_cons_strict_shorter {σ α : Type}
    (step : σ → Except PyErr (PyIterReturn α) × σ) (mkT : List α → α)
    (s : σ) (rest : List σ) (j : Nat) (v : Option α) (sts : List σ)
    (hpull : zipPullAux step (s :: rest) 0 = ZipPull.stopAt j v sts) (hj : 0 < j) :
    zipNext step mkT ⟨s :: rest, true⟩
      = (Except.error (PyErr.valueError (zipShorterMsg j)), ⟨sts, true⟩) := by
  rw [zipNext]
  simp [hpull, hj]

theorem zipNext_cons_strict_stop_singleton {σ α : Type}
    (step : σ → Except PyErr (PyIterReturn α) × σ) (mkT : List α → α)
    (s : σ) (rest : List σ) (v : Option α) (s0 : σ)
    (hpull : zipPullAux step (s :: rest) 0 = ZipPull.stopAt 0 v [s0]) :
    zipNext step mkT ⟨s :: rest, true⟩
      = (Except.ok (PyIterReturn.StopIteration v), ⟨[s0], true⟩) := by
  rw [zipNext]
  simp [hpull]

theorem zipNext_cons_strict_probe_return {σ α : Type}
    (step : σ → Except PyErr (PyIterReturn α) × σ) (mkT : List α → α)
    (s : σ) (rest : List σ) (v : Option α) (s0 s1 : σ) (t : List σ)
    (x : α) (s1' : σ)
    (hpull : zipPullAux step (s :: rest) 0 = ZipPull.stopAt 0 v (s0 :: s1 :: t))
    (hprobe : step s1 = (Except.ok (PyIterReturn.Return x), s1')) :
    zipNext step mkT ⟨s :: rest, true⟩
      = (Except.error (PyErr.valueError (zipLongerMsg 0)), ⟨s0 :: s1' :: t, true⟩) := by
  rw [zipNext]
  simp [hpull, hprobe]

theorem zipNext_cons_strict_probe_stop {σ α : Type}
    (step : σ → Except PyErr (PyIterReturn α) × σ) (mkT : List α → α)
    (s : σ) (rest : List σ) (v : Option α) (s0 s1 : σ) (t : List σ)
    (v2 : Option α) (s1' : σ)
    (hpull : zipPullAux step (s :: rest) 0 = ZipPull.stopAt 0 v (s0 :: s1 :: t))
    (hprobe : step s1 = (Except.ok (PyIterReturn.StopIteration v2), s1')) :
    zipNext step mkT ⟨s :: rest, true⟩
      = (Except.ok (PyIterReturn.StopIteration v2), ⟨s0 :: s1' :: t, true⟩) := by
  rw [zipNext]
  simp [hpull, hprobe]

theorem zipNext_cons_objs {σ α : Type}
    (step : σ → Except PyErr (PyIterReturn α) × σ) (mkT : List α → α)
    (s : σ) (rest : List σ) (b : Bool) (xs : List α) (sts : List σ)
    (hpull : zipPullAux step (s :: rest) 0 = ZipPull.objs xs sts) :
    zipNext step mkT ⟨s :: rest, b⟩
      = (Except.ok (PyIterReturn.Return (mkT xs)), ⟨sts, b⟩) := by
  rw [zipNext]
  simp [hpull]

theorem zipNext_stops_nonstrict {σ α : Type} (g : σ → Option α × σ) (hg : PureSticky g)
    (mkT : List α → α) (its : List σ)
    (hex : its = [] ∨ ∃ s, s ∈ its ∧ (g s).1 = none) :
    IterReturnIsStop (zipNext (liftIterZ g) mkT ⟨its, false⟩).1
    ∧ ((zipNext (liftIterZ g) mkT ⟨its, false⟩).2.iterators = []
      ∨ ∃ s', s' ∈ (zipNext (liftIterZ g) mkT ⟨its, false⟩).2.iterators
          ∧ (g s').1 = none) := by
  cases its with
  | nil =>
    rw [zipNext_empty]
    exact ⟨⟨none, rfl⟩, Or.inl rfl⟩
  | cons s rest =>
    have hex2 : ∃ w, w ∈ s :: rest ∧ (g w).1 = none := by
      rcases hex with hnil | h
      · exact absurd hnil (by simp)
      · exact h
    obtain ⟨j, v, sts, hpull, s', hmem, hs'⟩ :=
      zipPullAux_ex_stop g hg (s :: rest) 0 hex2
    rw [zipNext_cons_nonstrict_stopAt (liftIterZ g) mkT s rest j v sts hpull]
    exact ⟨⟨v, rfl⟩, Or.inr ⟨s', hmem, hs'⟩⟩

theorem zipNext_stop_preserved {σ α : Type} (g : σ → Option α × σ) (hg : PureSticky g)
    (mkT : List α → α) :
    ∀ z, IterReturnIsStop (zipNext (liftIterZ g) mkT z).1 →
      IterReturnIsStop
        (zipNext (liftIterZ g) mkT (stepState (zipNext (liftIterZ g) mkT) z)).1 := by
  rintro ⟨its, strict⟩ ⟨v, hv⟩
  cases its with
  | nil =>
    show IterReturnIsStop (zipNext (liftIterZ g) mkT (zipNext (liftIterZ g) mkT ⟨[], strict⟩).2).1
    rw [zipNext_empty, zipNext_empty]
    exact ⟨none, rfl⟩
  | cons s rest =>
    show IterReturnIsStop (zipNext (liftIterZ g) mkT (zipNext (liftIterZ g) mkT ⟨s :: rest, strict⟩).2).1
    cases hgs : (g s).1 with
    | none =>
      have hpull : zipPullAux (liftIterZ g) (s :: rest) 0
          = ZipPull.stopAt 0 none ((g s).2 :: rest) := by
        rw [zipPullAux, liftIterZ_none g s hgs]
      have hsticky0 : (g ((g s).2)).1 = none := hg s hgs
      cases strict with
      | false =>
        rw [zipNext_cons_nonstrict_stopAt (liftIterZ g) mkT s rest 0 none _ hpull]
        exact (zipNext_stops_nonstrict g hg mkT ((g s).2 :: rest)
          (Or.inr ⟨(g s).2, by simp, hsticky0⟩)).1
      | true =>
        cases rest with
        | nil =>
          rw [zipNext_cons_strict_stop_singleton (liftIterZ g) mkT s [] none ((g s).2) hpull]
          have hpull2 : zipPullAux (liftIterZ g) [(g s).2] 0
              = ZipPull.stopAt 0 none [(g ((g s).2)).2] := by
            rw [zipPullAux, liftIterZ_none g ((g s).2) hsticky0]
          rw [zipNext_cons_strict_stop_singleton (liftIterZ g) mkT ((g s).2) [] none _ hpull2]
          exact ⟨none, rfl⟩
        | cons s1 t =>
          cases hg1 : (g s1).1 with
          | some x =>
            rw [zipNext_cons_strict_probe_return (liftIterZ g) mkT s (s1 :: t) none
              ((g s).2) s1 t x ((g s1).2) hpull (liftIterZ_some g s1 x hg1)] at hv
            simp at hv
          | none =>
            rw [zipNext_cons_strict_probe_stop (liftIterZ g) mkT s (s1 :: t) none
              ((g s).2) s1 t none ((g s1).2) hpull (liftIterZ_none g s1 hg1)]
            have hsticky1 : (g ((g s1).2)).1 = none := hg s1 hg1
            have hpull2 : zipPullAux (liftIterZ g) ((g s).2 :: (g s1).2 :: t) 0
                = ZipPull.stopAt 0 none ((g ((g s).2)).2 :: (g s1).2 :: t) := by
              rw [zipPullAux, liftIterZ_none g ((g s).2) hsticky0]
            rw [zipNext_cons_strict_probe_stop (liftIterZ g) mkT ((g s).2) ((g s1).2 :: t) none
              ((g ((g s).2)).2) ((g s1).2) t none ((g ((g s1).2)).2) hpull2
              (liftIterZ_none g ((g s1).2) hsticky1)]
            exact ⟨none, rfl⟩
    | some x =>
      cases hpr : zipPullAux (liftIterZ g) rest 1 with
      | failed e sts =>
        exact absurd hpr (zipPullAux_nofail g rest 1 e sts)
      | objs xs sts =>
        have hpull : zipPullAux (liftIterZ g) (s :: rest) 0
            = ZipPull.objs (x :: xs) ((g s).2 :: sts) := by
          rw [zipPullAux, liftIterZ_some g s x hgs, hpr]
        rw [zipNext_cons_objs (liftIterZ g) mkT s rest strict (x :: xs) _ hpull] at hv
        simp at hv
      | stopAt j v' sts =>
        have hj : 1 ≤ j := zipPullAux_stop_lb g rest 1 j v' sts hpr
        have hpull : zipPullAux (liftIterZ g) (s :: rest) 0
            = ZipPull.stopAt j v' ((g s).2 :: sts) := by
          rw [zipPullAux, liftIterZ_some g s x hgs, hpr]
        cases strict with
        | true =>
          rw [zipNext_cons_strict_shorter (liftIterZ g) mkT s rest j v' _ hpull (by omega)] at hv
          simp at hv
        | false =>
          rw [zipNext_cons_nonstrict_stopAt (liftIterZ g) mkT s rest j v' _ hpull]
          obtain ⟨s', hmem, hs'⟩ := zipPullAux_stop_member g hg rest 1 j v' sts hpr
          exact (zipNext_stops_nonstrict g hg mkT ((g s).2 :: sts)
            (Or.inr ⟨s', by simp [hmem], hs'⟩)).1

theorem liftIterP_none {σ α : Type} (g : σ → Option α × σ) (s : σ)
    (h : (g s).1 = none) :
    liftIterP g s = (Except.error PyErr.stopIteration, (g s).2) := by
  rw [liftIterP]
  have : g s = (none, (g s).2) := by rw [← h]
  rw [this]

theorem liftIterP_some {σ α : Type} (g : σ → Option α × σ) (s : σ) (x : α)
    (h : (g s).1 = some x) :
    liftIterP g s = (Except.ok x, (g s).2) := by
  rw [liftIterP]
  have : g s = (some x, (g s).2) := by rw [← h]
  rw [this]

theorem enumNext_lift_stop_preserved {σ α : Type} (g : σ → Option α × σ)
    (hg : PureSticky g) :
    ∀ e, ExceptIsStop (enumNext (liftIterP g) e).1 →
      ExceptIsStop (enumNext (liftIterP g) (stepState (enumNext (liftIterP g)) e)).1 := by
  intro e h
  cases hge : (g e.iterator).1 with
  | some v =>
    have heq : enumNext (liftIterP g) e
        = (Except.ok (e.counter, v), ⟨e.counter + 1, (g e.iterator).2⟩) := by
      rw [enumNext, liftIterP_some g _ v hge]
    rw [ExceptIsStop, heq] at h
    simp at h
  | none =>
    have heq : enumNext (liftIterP g) e
        = (Except.error PyErr.stopIteration, ⟨e.counter, (g e.iterator).2⟩) := by
      rw [enumNext, liftIterP_none g _ hge]
    show ExceptIsStop (enumNext (liftIterP g) (enumNext (liftIterP g) e).2).1
    rw [heq]
    have hg2 : (g ((g e.iterator).2)).1 = none := hg _ hge
    have heq2 : enumNext (liftIterP g)
        (⟨e.counter, (g e.iterator).2⟩ : PyEnumerateState σ)
        = (Except.error PyErr.stopIteration,
            ⟨e.counter, (g ((g e.iterator).2)).2⟩) := by
      rw [enumNext, liftIterP_none g _ hg2]
    rw [heq2]
    rfl

theorem mapCollect_lift_err {σ α : Type} (g : σ → Option α × σ) (hg : PureSticky g) :
    ∀ (l : List σ) (e : PyErr) (sts : List σ),
      mapCollect (liftIterP g) l = (Except.error e, sts) →
      e = PyErr.stopIteration ∧ ∃ s', s' ∈ sts ∧ (g s').1 = none := by
  intro l
  induction l with
  | nil =>
    intro e sts h
    rw [mapCollect] at h
    simp at h
  | cons s rest ih =>
    intro e sts h
    cases hgs : (g s).1 with
    | none =>
      rw [mapCollect, liftIterP_none g s hgs] at h
      injection h with h1 h2
      injection h1 with h1
      refine ⟨h1.symm, (g s).2, ?_, hg s hgs⟩
      rw [← h2]
      simp
    | some x =>
      rw [mapCollect, liftIterP_some g s x hgs] at h
      revert h
      cases hcr : mapCollect (liftIterP g) rest with
      | mk r sts' =>
        cases r with
        | error e' =>
          intro h
          injection h with h1 h2
          injection h1 with h1
          obtain ⟨he, s', hmem, hs'⟩ := ih e' sts' hcr
          refine ⟨by rw [← h1, he], s', ?_, hs'⟩
          rw [← h2]
          simp [hmem]
        | ok vs =>
          intro h
          injection h with h1 _
          exact Except.noConfusion h1

theorem mapCollect_lift_ex_stop {σ α : Type} (g : σ → Option α × σ) (hg : PureSticky g) :
    ∀ (l : List σ), (∃ s, s ∈ l ∧ (g s).1 = none) →
      ∃ sts, mapCollect (liftIterP g) l = (Except.error PyErr.stopIteration, sts)
        ∧ ∃ s', s' ∈ sts ∧ (g s').1 = none := by
  intro l
  induction l with
  | nil =>
    rintro ⟨s, hs, -⟩
    exact absurd hs (List.not_mem_nil s)
  | cons s rest ih =>
    rintro ⟨w, hw, hwnone⟩
    cases hgs : (g s).1 with
    | none =>
      refine ⟨(g s).2 :: rest, ?_, (g s).2, by simp, hg s hgs⟩
      rw [mapCollect, liftIterP_none g s hgs]
    | some x =>
      have hwr : w ∈ rest := by
        rcases List.mem_cons.mp hw with heq | hmem
        · rw [heq] at hwnone; rw [hwnone] at hgs; exact Option.noConfusion hgs
        · exact hmem
      obtain ⟨sts, hcol, s', hmem, hs'⟩ := ih ⟨w, hwr, hwnone⟩
      refine ⟨(g s).2 :: sts, ?_, s', by simp [hmem], hs'⟩
      rw [mapCollect, liftIterP_some g s x hgs, hcol]

theorem mapNext_mapper {σ α β : Type} (step : σ → Except PyErr α × σ)
    (m : PyMapState σ α β) :
    (mapNext step m).2.mapper = m.mapper := by
  cases hcol : mapCollect step m.iterators with
  | mk r sts =>
    cases r with
    | error e => rw [mapNext, hcol]
    | ok vs => rw [mapNext, hcol]

theorem mapNext_lift_stop_preserved {σ α β : Type} (g : σ → Option α × σ)
    (hg : PureSticky g) :
    ∀ (m : PyMapState σ α β),
      (∀ xs, m.mapper xs ≠ Except.error PyErr.stopIteration) →
      ExceptIsStop (mapNext (liftIterP g) m).1 →
      ExceptIsStop (mapNext (liftIterP g) (stepState (mapNext (liftIterP g)) m)).1 := by
  intro m hf h
  cases hcol : mapCollect (liftIterP g) m.iterators with
  | mk r sts =>
    cases r with
    | ok vs =>
      have heq : mapNext (liftIterP g) m = (m.mapper vs, ⟨m.mapper, sts⟩) := by
        rw [mapNext, hcol]
      rw [ExceptIsStop, heq] at h
      exact absurd h (hf vs)
    | error e =>
      obtain ⟨-, s', hmem, hs'⟩ := mapCollect_lift_err g hg m.iterators e sts hcol
      have heq : mapNext (liftIterP g) m = (Except.error e, ⟨m.mapper, sts⟩) := by
        rw [mapNext, hcol]
      show ExceptIsStop (mapNext (liftIterP g) (mapNext (liftIterP g) m).2).1
      rw [heq]
      obtain ⟨sts2, hcol2, -⟩ := mapCollect_lift_ex_stop g hg sts ⟨s', hmem, hs'⟩
      have heq2 : mapNext (liftIterP g) (⟨m.mapper, sts⟩ : PyMapState σ α β)
          = (Except.error PyErr.stopIteration, ⟨m.mapper, sts2⟩) := by
        rw [mapNext, hcol2]
      rw [heq2]
      rfl

theorem liftGetItem_none {σ α : Type} (g : σ → Int → Option α) (s : σ) (i : Int)
    (h : g s i = none) :
    liftGetItem g s i = Except.error (PyErr.indexError "index out of range") := by
  rw [liftGetItem, h]

theorem liftGetItem_some {σ α : Type} (g : σ → Int → Option α) (s : σ) (i : Int) (v : α)
    (h : g s i = some v) :
    liftGetItem g s i = Except.ok v := by
  rw [liftGetItem, h]

theorem revSeqNext_lift_stop_preserved {σ α : Type} (g : σ → Int → Option α) :
    ∀ it, ExceptIsStop (revSeqNext (liftGetItem g) it).1 →
      ExceptIsStop (revSeqNext (liftGetItem g)
        (stepState (revSeqNext (liftGetItem g)) it)).1 := by
  intro it h
  cases hst : it.status with
  | Exhausted =>
    show ExceptIsStop (revSeqNext (liftGetItem g) (revSeqNext (liftGetItem g) it).2).1
    rw [revSeqNext_exhausted _ it hst, revSeqNext_exhausted _ it hst]
    rfl
  | Active =>
    show ExceptIsStop (revSeqNext (liftGetItem g) (revSeqNext (liftGetItem g) it).2).1
    by_cases hpos : (0 : Int) ≤ it.position
    · cases hgi : g it.obj it.position with
      | some v =>
        have heq : revSeqNext (liftGetItem g) it
            = (Except.ok v, ⟨it.position - 1, it.status, it.obj⟩) := by
          rw [revSeqNext, hst]
          simp [hpos, liftGetItem_some g _ _ v hgi]
        rw [ExceptIsStop] at h
        rw [heq] at h
        simp at h
      | none =>
        have heq : revSeqNext (liftGetItem g) it
            = (Except.error PyErr.stopIteration,
                ⟨it.position - 1, RevIterStatus.Exhausted, it.obj⟩) := by
          rw [revSeqNext, hst]
          simp [hpos, liftGetItem_none g _ _ hgi]
        rw [heq]
        rw [revSeqNext_exhausted _ _ rfl]
        rfl
    · have heq : revSeqNext (liftGetItem g) it
          = (Except.error PyErr.stopIteration,
              ⟨it.position - 1, RevIterStatus.Exhausted, it.obj⟩) := by
        rw [revSeqNext, hst]
        simp [hpos]
      rw [heq]
      rw [revSeqNext_exhausted _ _ rfl]
      rfl

theorem odictIterNext_stop_preserved {κ ω α : Type} (resultFn : κ → ω → α) :
    ∀ s, IterReturnIsStop (odictIterNext resultFn s).1 →
      IterReturnIsStop (odictIterNext resultFn
        (stepState (odictIterNext resultFn) s)).1 := by
  rintro s ⟨v, hv⟩
  show IterReturnIsStop (odictIterNext resultFn (odictIterNext resultFn s).2).1
  cases hst : s.internal.status with
  | Exhausted =>
    have heq : odictIterNext resultFn s = (Except.ok (PyIterReturn.StopIteration none), s) := by
      rw [odictIterNext, hst]
    rw [heq, heq]
    exact ⟨none, rfl⟩
  | Active d =>
    by_cases hch : hasChangedSize d s.size = true
    · have heq : (odictIterNext resultFn s).1
          = Except.error (PyErr.runtimeError "dictionary changed size during iteration") := by
        rw [odictIterNext, hst]
        simp [hch]
      rw [heq] at hv
      exact Except.noConfusion hv
    · cases hne : nextEntry d s.internal.position with
      | some entry =>
        have heq : (odictIterNext resultFn s).1
            = Except.ok (PyIterReturn.Return (resultFn entry.2.1 entry.2.2)) := by
          rw [odictIterNext, hst]
          simp only [Bool.not_eq_true] at hch
          simp [hch, hne]
        rw [heq] at hv
        simp at hv
      | none =>
        have heq : odictIterNext resultFn s
            = (Except.ok (PyIterReturn.StopIteration none),
                { s with internal := { s.internal with status := PosIterStatus.Exhausted } }) := by
          rw [odictIterNext, hst]
          simp only [Bool.not_eq_true] at hch
          simp [hch, hne]
        rw [heq]
        exact ⟨none, rfl⟩

theorem odictReverseIterNext_stop_preserved {κ ω α : Type} (resultFn : κ → ω → α) :
    ∀ s, IterReturnIsStop (odictReverseIterNext resultFn s).1 →
      IterReturnIsStop (odictReverseIterNext resultFn
        (stepState (odictReverseIterNext resultFn) s)).1 := by
  rintro s ⟨v, hv⟩
  show IterReturnIsStop (odictReverseIterNext resultFn (odictReverseIterNext resultFn s).2).1
  cases hst : s.internal.status with
  | Exhausted =>
    have heq : odictReverseIterNext resultFn s
        = (Except.ok (PyIterReturn.StopIteration none), s) := by
      rw [odictReverseIterNext, hst]
    rw [heq, heq]
    exact ⟨none, rfl⟩
  | Active d =>
    by_cases hch : hasChangedSize d s.size = true
    · have heq : (odictReverseIterNext resultFn s).1
          = Except.error (PyErr.runtimeError "dictionary changed size during iteration") := by
        rw [odictReverseIterNext, hst]
        simp [hch]
      rw [heq] at hv
      exact Except.noConfusion hv
    · cases hne : prevEntry d s.internal.position with
      | some entry =>
        obtain ⟨p, kk, vv⟩ := entry
        have heq : (odictReverseIterNext resultFn s).1
            = Except.ok (PyIterReturn.Return (resultFn kk vv)) := by
          rw [odictReverseIterNext, hst]
          simp only [Bool.not_eq_true] at hch
          simp only [hch, hne, Bool.false_eq_true, if_false]
          split
          · rfl
          · rfl
        rw [heq] at hv
        simp at hv
      | none =>
        have heq : odictReverseIterNext resultFn s
            = (Except.ok (PyIterReturn.StopIteration none),
                { s with internal := { s.internal with status := PosIterStatus.Exhausted } }) := by
          rw [odictReverseIterNext, hst]
          simp only [Bool.not_eq_true] at hch
          simp [hch, hne]
        rw [heq]
        exact ⟨none, rfl⟩

/-- A transform that signals stop exactly when handed the value `1`, and
otherwise sums its arguments. -/
def c3Mapper : List Nat → Except PyErr Nat :=
  fun xs => if xs = [1] then Except.error PyErr.stopIteration
    else Except.ok (xs.foldl (· + ·) 0)

/-- Claim C3, counterexample: Exhaustion is *not* sticky for map as the
claim states it: over the single sticky sub-iterator `[1, 2]` with a
transform that signals stop on `1`, the first `next` yields the exhaustion
signal, yet the second `next` yields the item `2` — the code keeps no
exhaustion flag and re-invokes the transform. -/
theorem map_transform_stop_not_sticky_counterexample :
    ExceptIsStop (mapNext (liftIterP listPull)
      (⟨c3Mapper, [[1, 2]]⟩ : PyMapState (List Nat) Nat Nat)).1
    ∧ (mapNext (liftIterP listPull)
        (stepState (mapNext (liftIterP listPull))
          (⟨c3Mapper, [[1, 2]]⟩ : PyMapState (List Nat) Nat Nat))).1
      = Except.ok 2 := by
  exact ⟨rfl, rfl⟩

/-- Claim C3, amended: Sticky exhaustion over sub-iterators of the spec's
`Yielded | Exhausted` signature that are themselves sticky: enumerate, zip
(either strict mode), the reverse-sequence iterator (over any subject
reached through the spec's item-access interface), and the forward and
reverse ordered-mapping view iterators of every kind never leave
exhaustion once a `next` call has yielded the exhaustion signal — no
further item, no other error; map is sticky under the additional proviso
that its transform never itself signals stop (a stop-signalling transform
ends the call but a later call may resume, per the counterexample). -/
theorem iterators_sticky_exhaustion :
    (∀ (σ α : Type) (g : σ → Option α × σ), PureSticky g →
      StickyIter (enumNext (liftIterP g)) ExceptIsStop)
    ∧ (∀ (σ α β : Type) (g : σ → Option α × σ) (f : List α → Except PyErr β) (its : List σ),
        PureSticky g → (∀ xs, f xs ≠ Except.error PyErr.stopIteration) →
        ExceptIsStop (mapNext (liftIterP g) (⟨f, its⟩ : PyMapState σ α β)).1 →
        ∀ n, ExceptIsStop (mapNext (liftIterP g)
          (stepN (mapNext (liftIterP g)) n
            (stepState (mapNext (liftIterP g)) (⟨f, its⟩ : PyMapState σ α β)))).1)
    ∧ (∀ (σ α : Type) (g : σ → Option α × σ) (mkT : List α → α), PureSticky g →
        StickyIter (zipNext (liftIterZ g) mkT) IterReturnIsStop)
    ∧ (∀ (σ α : Type) (g : σ → Int → Option α),
        StickyIter (revSeqNext (liftGetItem g)) ExceptIsStop)
    ∧ (∀ (κ ω α : Type) (resultFn : κ → ω → α),
        StickyIter (odictIterNext resultFn) IterReturnIsStop)
    ∧ (∀ (κ ω α : Type) (resultFn : κ → ω → α),
        StickyIter (odictReverseIterNext resultFn) IterReturnIsStop) := by
  refine ⟨?_, ?_, ?_, ?_, ?_, ?_⟩
  · intro σ α g hg
    exact stickyIter_of_preserved _ _ (enumNext_lift_stop_preserved g hg)
  · intro σ α β g f its hg hf h n
    have key : ∀ (n : Nat) (m : PyMapState σ α β),
        (∀ xs, m.mapper xs ≠ Except.error PyErr.stopIteration) →
        ExceptIsStop (mapNext (liftIterP g) m).1 →
        ExceptIsStop (mapNext (liftIterP g)
          (stepN (mapNext (liftIterP g)) n (stepState (mapNext (liftIterP g)) m))).1 := by
      intro n
      induction n with
      | zero =>
        intro m hm hstop
        exact mapNext_lift_stop_preserved g hg m hm hstop
      | succ n ih =>
        intro m hm hstop
        show ExceptIsStop (mapNext (liftIterP g)
          (stepN (mapNext (liftIterP g)) n
            (stepState (mapNext (liftIterP g))
              (stepState (mapNext (liftIterP g)) m)))).1
        have hm' : ∀ xs, (stepState (mapNext (liftIterP g)) m).mapper xs
            ≠ Except.error PyErr.stopIteration := by
          intro xs
          rw [stepState, mapNext_mapper]
          exact hm xs
        exact ih (stepState (mapNext (liftIterP g)) m) hm'
          (mapNext_lift_stop_preserved g hg m hm hstop)
    exact key n ⟨f, its⟩ hf h
  · intro σ α g mkT hg
    exact stickyIter_of_preserved _ _ (zipNext_stop_preserved g hg mkT)
  · intro σ α g
    exact stickyIter_of_preserved _ _ (revSeqNext_lift_stop_preserved g)
  · intro κ ω α resultFn
    exact stickyIter_of_preserved _ _ (odictIterNext_stop_preserved resultFn)
  · intro κ ω α resultFn
    exact stickyIter_of_preserved _ _ (odictReverseIterNext_stop_preserved resultFn)

theorem iterators_sticky_exhaustion_witness :
    StickyIter (enumNext (liftIterP (listPull (α := Nat)))) ExceptIsStop
    ∧ StickyIter (zipNext (liftIterZ (listPull (α := PyObj))) PyObj.tuple) IterReturnIsStop
    ∧ StickyIter (revSeqNext (liftGetItem (fun (l : List Nat) (i : Int) =>
        if h : 0 ≤ i ∧ i.toNat < l.length then some (l.get ⟨i.toNat, h.2⟩) else none)))
        ExceptIsStop
    ∧ StickyIter (odictIterNext (fun (k _ : Nat) => k)) IterReturnIsStop
    ∧ StickyIter (odictReverseIterNext (fun (k _ : Nat) => k)) IterReturnIsStop
    ∧ (∀ n, ExceptIsStop (mapNext (liftIterP (listPull (α := Nat)))
        (stepN (mapNext (liftIterP (listPull (α := Nat)))) n
          (stepState (mapNext (liftIterP (listPull (α := Nat))))
            ((⟨fun xs => Except.ok (xs.foldl (· + ·) 0), [[]]⟩ : PyMapState (List Nat) Nat Nat))))).1) := by
  refine ⟨?_, ?_, ?_, ?_, ?_, ?_⟩
  · exact iterators_sticky_exhaustion.1 (List Nat) Nat listPull listPull_sticky
  · exact iterators_sticky_exhaustion.2.2.1 (List PyObj) PyObj listPull PyObj.tuple
      listPull_sticky
  · exact iterators_sticky_exhaustion.2.2.2.1 (List Nat) Nat _
  · exact iterators_sticky_exhaustion.2.2.2.2.1 Nat Nat Nat _
  · exact iterators_sticky_exhaustion.2.2.2.2.2 Nat Nat Nat _
  · intro n
    exact iterators_sticky_exhaustion.2.1 (List Nat) Nat Nat listPull
      (fun xs => Except.ok (xs.foldl (· + ·) 0)) [[]] listPull_sticky
      (fun xs h => Except.noConfusion h) rfl n
